import Mathlib

/-!
Verification of the cyclone-style particle / rigid-body physics core.

The TypeScript sources are embedded shallowly:

* JS `number` values flowing through code paths that can only produce finite
  values are modelled as `ℚ` (the claims are about exact algebraic structure,
  so exact arithmetic stands in for floating point).
* Code paths on which a JS value can become `NaN` (or `undefined` read out of
  bounds and then used in arithmetic, which also yields `NaN`) are modelled
  with `Option ℚ`, where `none` stands for the non-finite result.  Arithmetic
  propagates `none`; every JS comparison with `NaN` is `false`.
* Transcendental library calls (`Math.pow`, `Math.sqrt`, `Math.cos`,
  `Math.sin`, `Math.exp`) are taken as function parameters, since their exact
  values are not rational; theorems that depend on them carry the relevant
  facts as hypotheses or instantiate them at inputs where the value is exact.
* Particle object identity (JS `==` on references) is modelled by indices into
  a particle store (`List Particle`).
* Reads of absent values that make JS throw a `TypeError`
  (`vec3.zero(undefined)`, `vec3.dot(undefined, n)`) are modelled with
  `Except Unit`, `.error ()` marking the thrown step.

The vector module `src/vector` itself is not among the provided sources (only
its call sites are).  Modelled from the spec: the math collaborator provides
add / scale / dot / normalize componentwise on 3-vectors, and its operations
require their vector arguments to be present; they are embedded below as exact
componentwise rational operations.
-/

/-- A 3-vector of exact rationals, the model of a finite gl-matrix `vec3`. -/
structure V3 where
  x : ℚ
  y : ℚ
  z : ℚ
deriving DecidableEq, Repr

namespace V3

/-- Componentwise addition, the model of `vec3.add` / `vec3.scaleAndAdd`. -/
def add (a b : V3) : V3 := ⟨a.x + b.x, a.y + b.y, a.z + b.z⟩

/-- Componentwise subtraction, the model of `vec3.sub`. -/
def sub (a b : V3) : V3 := ⟨a.x - b.x, a.y - b.y, a.z - b.z⟩

/-- Scaling, the model of `vec3.scale`. -/
def scale (a : V3) (s : ℚ) : V3 := ⟨a.x * s, a.y * s, a.z * s⟩

/-- Dot product, the model of `vec3.dot`. -/
def dot (a b : V3) : ℚ := a.x * b.x + a.y * b.y + a.z * b.z

/-- The zero vector, the model of `vec3.create()`. -/
def zero : V3 := ⟨0, 0, 0⟩

/-- The model of `vec3.scaleAndAdd out a b s`, namely `a + b * s`. -/
def scaleAndAdd (a b : V3) (s : ℚ) : V3 := add a (scale b s)

end V3

/-- The particle state of `src/src/particle.ts`.  Getter/setter pairs of the
class are field accesses / functional updates; `setVelocity` and friends copy
their argument, so value semantics is faithful. -/
structure Particle where
  inverseMass : ℚ
  damping : ℚ
  position : V3
  velocity : V3
  forceAccum : V3
  acceleration : V3
deriving DecidableEq, Repr

instance : Inhabited Particle :=
  ⟨{ inverseMass := 0, damping := 0, position := V3.zero, velocity := V3.zero
     forceAccum := V3.zero, acceleration := V3.zero }⟩

namespace Particle

/-- Embedding of `Particle.integrate(duration)` from `src/src/particle.ts`.

The source writes `const resultingAcc = this.acceleration;` and then calls
`vec3.scaleAndAdd(resultingAcc, resultingAcc, this.forceAccum, this.inverseMass)`;
since `resultingAcc` aliases the stored `acceleration` vector, that call
mutates the persistent `acceleration` field in place.  `pow` models
`Math.pow` (used for `damping^duration`).  The `assert(duration > 0)` call is
`console.assert`, which logs and does not interrupt execution, so it has no
effect on the state. -/
def integrate (pow : ℚ → ℚ → ℚ) (duration : ℚ) (p : Particle) : Particle :=
  let position := V3.scaleAndAdd p.position p.velocity duration
  let resultingAcc := V3.scaleAndAdd p.acceleration p.forceAccum p.inverseMass
  let velocity := V3.scaleAndAdd p.velocity resultingAcc duration
  let velocity := V3.scale velocity (pow p.damping duration)
  { p with
    position := position
    acceleration := resultingAcc
    velocity := velocity
    forceAccum := V3.zero }

/-- Embedding of `Particle.hasFiniteMass()`: the source returns
`this.inverseMass >= 0`. -/
def hasFiniteMass (p : Particle) : Bool := p.inverseMass ≥ 0

/-- Embedding of `Particle.addForce(force)`. -/
def addForce (f : V3) (p : Particle) : Particle :=
  { p with forceAccum := V3.add p.forceAccum f }

end Particle

/-- The state of a `ParticleGravity` force generator (`part_001`): its stored
gravity vector. -/
structure ParticleGravity where
  gravity : V3
deriving DecidableEq, Repr

namespace ParticleGravity

/-- Embedding of `ParticleGravity.updateForce(particle, duration)`.

The source adds `vec3.scale(this.gravity, this.gravity, duration)` to the
particle force accumulator: the scale writes into the generator's own stored
`gravity` vector (first argument is the out-parameter), so the generator
rescales its configuration by `duration` every call and then adds that
rescaled vector.  The guard uses `hasFiniteMass`, which is
`inverseMass >= 0`.  Returns the updated generator and particle. -/
def updateForce (g : ParticleGravity) (p : Particle) (duration : ℚ) :
    ParticleGravity × Particle :=
  if ¬ p.hasFiniteMass then (g, p)
  else
    let scaled := V3.scale g.gravity duration
    (⟨scaled⟩, p.addForce scaled)

end ParticleGravity

/-- The contact record of `src/src/pcontacts.ts`.  `particles[0]` and
`particles[1]` are references to particle objects; reference identity is
modelled by indices into the particle store, slot 1 being `Option` because it
may be absent (scenery contact).  `particleMovement` is declared as an empty
array in the source, so each slot starts out absent (`none`) until
`resolveInterpenetration` assigns it. -/
structure ParticleContact where
  p0 : ℕ
  p1 : Option ℕ
  restitution : ℚ
  contactNormal : V3
  penetration : ℚ
  movement0 : Option V3
  movement1 : Option V3
deriving DecidableEq, Repr

/-- Read a particle object out of the store, the model of dereferencing a
particle pointer held by a contact. -/
def getP (ps : List Particle) (i : ℕ) : Particle := ps.getD i default

/-- Write a particle object back into the store (mutation of the referenced
object). -/
def setP (ps : List Particle) (i : ℕ) (p : Particle) : List Particle := ps.set i p

namespace ParticleContact

/-- Embedding of `ParticleContact.calculateSeparatingVelocity()`:
`(v0 - v1) · normal`, with the `v1` term dropped when slot 1 is absent. -/
def calcSepVel (ps : List Particle) (c : ParticleContact) : ℚ :=
  let rel :=
    match c.p1 with
    | some j => V3.sub (getP ps c.p0).velocity (getP ps j).velocity
    | none => (getP ps c.p0).velocity
  V3.dot rel c.contactNormal

/-- Embedding of the private `resolveVelocity(duration)`.  Velocities are
updated in the store sequentially, exactly as the source mutates particle 0
before reading particle 1. -/
def resolveVelocity (ps : List Particle) (c : ParticleContact) (duration : ℚ) :
    List Particle :=
  let sep := calcSepVel ps c
  if 0 < sep then ps
  else
    let newSepPre := -sep * c.restitution
    let accVel :=
      match c.p1 with
      | some j => V3.sub (getP ps c.p0).acceleration (getP ps j).acceleration
      | none => (getP ps c.p0).acceleration
    let accSep := V3.dot accVel c.contactNormal * duration
    let newSep :=
      if accSep < 0 then
        let t := newSepPre + c.restitution * accSep
        if t < 0 then 0 else t
      else newSepPre
    let deltaVelocity := newSep - sep
    let totalInverseMass :=
      (getP ps c.p0).inverseMass +
        (match c.p1 with | some j => (getP ps j).inverseMass | none => 0)
    if totalInverseMass ≤ 0 then ps
    else
      let impulse := deltaVelocity / totalInverseMass
      let impulsePerIMass := V3.scale c.contactNormal impulse
      let q0 := getP ps c.p0
      let ps1 := setP ps c.p0
        { q0 with velocity := V3.scaleAndAdd q0.velocity impulsePerIMass q0.inverseMass }
      match c.p1 with
      | some j =>
        let q1 := getP ps1 j
        setP ps1 j
          { q1 with velocity := V3.scaleAndAdd q1.velocity impulsePerIMass (-q1.inverseMass) }
      | none => ps1

/-- Embedding of the private `resolveInterpenetration(duration)`.

On a scenery contact the source executes `vec3.zero(this.particleMovement[1])`;
when that slot was never assigned (the field is initialised to an empty
array), the vector routine dereferences `undefined` and the call throws,
modelled by `.error ()`.  When the slot holds a vector it is overwritten with
zero in place.  Note the `penetration` field itself is never written here. -/
def resolveInterpenetration (ps : List Particle) (c : ParticleContact)
    (_duration : ℚ) : Except Unit (List Particle × ParticleContact) :=
  if c.penetration ≤ 0 then .ok (ps, c)
  else
    let totalInverseMass :=
      (getP ps c.p0).inverseMass +
        (match c.p1 with | some j => (getP ps j).inverseMass | none => 0)
    if totalInverseMass ≤ 0 then .ok (ps, c)
    else
      let movePerIMass := V3.scale c.contactNormal (c.penetration / totalInverseMass)
      let m0 := V3.scale movePerIMass (getP ps c.p0).inverseMass
      match c.p1 with
      | some j =>
        let m1 := V3.scale movePerIMass (-(getP ps j).inverseMass)
        let c1 := { c with movement0 := some m0, movement1 := some m1 }
        let q0 := getP ps c.p0
        let ps1 := setP ps c.p0 { q0 with position := V3.add q0.position m0 }
        let q1 := getP ps1 j
        let ps2 := setP ps1 j { q1 with position := V3.add q1.position m1 }
        .ok (ps2, c1)
      | none =>
        match c.movement1 with
        | some _ =>
          let c1 := { c with movement0 := some m0, movement1 := some V3.zero }
          let q0 := getP ps c.p0
          .ok (setP ps c.p0 { q0 with position := V3.add q0.position m0 }, c1)
        | none => .error ()

/-- Embedding of `ParticleContact.resolve(duration)`: velocity pass then
interpenetration pass on the same pair. -/
def resolve (ps : List Particle) (c : ParticleContact) (duration : ℚ) :
    Except Unit (List Particle × ParticleContact) :=
  resolveInterpenetration (resolveVelocity ps c duration) c duration

end ParticleContact

/-- Dot product whose first argument may be an absent `particleMovement`
slot; dereferencing an absent vector throws in JS, modelled by `.error ()`. -/
def jsDotM (m : Option V3) (n : V3) : Except Unit ℚ :=
  match m with
  | some v => .ok (V3.dot v n)
  | none => .error ()

/-- The per-contact body of the interpenetration-coupling loop of
`ParticleContactResolver.resolveContacts` (pcontacts.ts lines 241-261),
transcribed branch for branch.  `r0`/`r1` are the particle slots of the
just-resolved contact and `m0`/`m1` its recorded movements; `c` is the contact
whose `penetration` is being adjusted.  The source contains a duplicated
block: inside the `particles[1]` branch it first repeats the subtraction
tests (with the second test reading `particles[0]` again) and then, in a
nested `particles[1]` check, performs the additions of the canonical
algorithm. -/
def coupleOne (m0 m1 : Option V3) (r0 : ℕ) (r1 : Option ℕ)
    (c : ParticleContact) : Except Unit ParticleContact := do
  let c ←
    if c.p0 = r0 then do
      let d ← jsDotM m0 c.contactNormal
      pure { c with penetration := c.penetration - d }
    else if some c.p0 = r1 then do
      let d ← jsDotM m1 c.contactNormal
      pure { c with penetration := c.penetration - d }
    else pure c
  match c.p1 with
  | none => pure c
  | some q => do
    let c ←
      if q = r0 then do
        let d ← jsDotM m0 c.contactNormal
        pure { c with penetration := c.penetration - d }
      else if some c.p0 = r1 then do
        let d ← jsDotM m1 c.contactNormal
        pure { c with penetration := c.penetration - d }
      else pure c
    if q = r0 then do
      let d ← jsDotM m0 c.contactNormal
      pure { c with penetration := c.penetration + d }
    else if some q = r1 then do
      let d ← jsDotM m1 c.contactNormal
      pure { c with penetration := c.penetration + d }
    else pure c

/-- Runs `coupleOne` over the first `k` contacts of the list (the source loop
runs `i` from `0` to `numContacts - 1`; indexing past the end of the array
dereferences `undefined` and throws). -/
def coupleAll (m0 m1 : Option V3) (r0 : ℕ) (r1 : Option ℕ) :
    ℕ → List ParticleContact → Except Unit (List ParticleContact)
  | 0, cs => .ok cs
  | _ + 1, [] => .error ()
  | k + 1, c :: cs => do
    let c1 ← coupleOne m0 m1 r0 r1 c
    let cs1 ← coupleAll m0 m1 r0 r1 k cs
    pure (c1 :: cs1)

instance : Inhabited ParticleContact :=
  ⟨{ p0 := 0, p1 := none, restitution := 0, contactNormal := V3.zero
     penetration := 0, movement0 := none, movement1 := none }⟩

/-- The comparison `sepVel < max` of the selection loop, where `max` starts
out as the JS literal `Infinity` (modelled by `none`): every finite value is
below `Infinity`, and once a finite maximum is recorded the comparison is the
rational one. -/
def ltMax (a : ℚ) (m : Option ℚ) : Bool :=
  match m with
  | none => true
  | some b => a < b

/-- The body of the selection loop of `resolveContacts`: compare the
contact's separating velocity against the running maximum and keep it when it
is strictly below and the contact is closing (`sepVel < 0`) or penetrating
(`penetration > 0`). -/
def findWorstStep (ps : List Particle) (cs : List ParticleContact)
    (acc : Option ℚ × ℕ) (i : ℕ) : Option ℚ × ℕ :=
  let c := cs.getD i default
  let sepVel := ParticleContact.calcSepVel ps c
  if ltMax sepVel acc.1 ∧ (sepVel < 0 ∨ 0 < c.penetration)
  then (some sepVel, i) else acc

/-- The selection loop of `resolveContacts`: starting from `max = Infinity`
and `maxIndex = numContacts`, scan
`i < numContacts && i < contactArray.length` applying `findWorstStep`. -/
def findWorst (ps : List Particle) (cs : List ParticleContact) (n : ℕ) : ℕ :=
  ((List.range (min n cs.length)).foldl (findWorstStep ps cs) (none, n)).2

/-- The resolver object: `iterations` and `iterationsUsed` are declared
without initialisers and the constructor body is empty, so both fields start
out `undefined` (`none`). -/
structure ParticleContactResolver where
  iterations : Option ℚ
  iterationsUsed : Option ℚ
deriving DecidableEq, Repr

namespace ParticleContactResolver

/-- Embedding of `new ParticleContactResolver(iterations?)`: the constructor
body is empty, so the argument is dropped and both fields stay undefined. -/
def make (_iterations : Option ℚ) : ParticleContactResolver :=
  { iterations := none, iterationsUsed := none }

/-- The JS comparison `iterationsUsed < iterations` of the while guard:
comparison with `undefined` (which coerces to `NaN`) is `false`. -/
def jsLt (a : ℚ) (b : Option ℚ) : Bool :=
  match b with
  | some q => a < q
  | none => false

/-- One iteration of the body of the `while` loop of `resolveContacts`:
select the worst contact, stop (`none`) if nothing qualifies, otherwise
resolve it and rebroadcast its recorded movements to the penetrations of the
first `n` contacts.  The resolved contact is written back before the coupling
loop reads `particleMovement` and the contact list, as in the source, where
both happen through the same array slot. -/
def iterBody (n : ℕ) (duration : ℚ)
    (st : List Particle × List ParticleContact) :
    Except Unit (Option (List Particle × List ParticleContact)) := do
  let (ps, cs) := st
  let j := findWorst ps cs n
  if j = n then pure none
  else do
    let c := cs.getD j default
    let (ps1, c1) ← ParticleContact.resolve ps c duration
    let cs1 := cs.set j c1
    let cs2 ← coupleAll c1.movement0 c1.movement1 c1.p0 c1.p1 n cs1
    pure (some (ps1, cs2))

/-- The `while (this.iterationsUsed < this.iterations)` loop.  The `fuel`
argument only bounds the recursion depth; `resolveContacts` below passes
`⌈iterations⌉₊`, which is exactly the number of times the guard
`iterationsUsed < iterations` can succeed starting from `0`, so the fuel
never runs out before the guard fails and the loop semantics is exact. -/
def goResolve (iter : Option ℚ) (n : ℕ) (duration : ℚ) :
    ℕ → ℚ → List Particle × List ParticleContact →
    Except Unit (ℚ × List Particle × List ParticleContact)
  | 0, used, st => .ok (used, st)
  | fuel + 1, used, st =>
    if jsLt used iter then do
      match ← iterBody n duration st with
      | none => pure (used, st)
      | some st1 => goResolve iter n duration fuel (used + 1) st1
    else .ok (used, st)

/-- Embedding of `resolveContacts(contactArray, numContacts, duration)`.
`iterationsUsed` is set to `0` on entry, then the loop runs; the final value
of the counter is stored back into the resolver.  The whole call is
`Except`-valued because the body can dereference absent `particleMovement`
slots (see `coupleAll`). -/
def resolveContacts (r : ParticleContactResolver) (cs : List ParticleContact)
    (n : ℕ) (duration : ℚ) (ps : List Particle) :
    Except Unit (ParticleContactResolver × List Particle × List ParticleContact) := do
  let fuel := match r.iterations with | some q => ⌈q⌉₊ | none => 0
  let (used, st) ← goResolve r.iterations n duration fuel 0 (ps, cs)
  pure ({ r with iterationsUsed := some used }, st)

end ParticleContactResolver

/-- A JS `number` in contexts where `NaN` can arise: `none` models a
non-finite value (`NaN`, or `undefined` drawn into arithmetic, which JS turns
into `NaN`; the rare division-by-zero infinities are conflated with it — no
embedded code path below distinguishes them).  `some q` is the finite value
`q`. -/
abbrev JsQ := Option ℚ

/-- JS addition: `NaN` propagates. -/
def jsAdd (a b : JsQ) : JsQ := a.bind fun x => b.map fun y => x + y

/-- JS subtraction: `NaN` propagates. -/
def jsSub (a b : JsQ) : JsQ := a.bind fun x => b.map fun y => x - y

/-- JS multiplication: `NaN` propagates (`0 * NaN` is `NaN`). -/
def jsMul (a b : JsQ) : JsQ := a.bind fun x => b.map fun y => x * y

/-- JS division.  Division by zero gives an infinity (or `NaN`), conflated
here with `none`; every embedded call site either guards the denominator away
from zero or only runs on already-`NaN` data. -/
def jsDiv (a b : JsQ) : JsQ :=
  match a, b with
  | some x, some y => if y = 0 then none else some (x / y)
  | _, _ => none

/-- The JS comparison `a < b`: any comparison involving `NaN` is false. -/
def jsLtB (a b : JsQ) : Bool :=
  match a, b with
  | some x, some y => decide (x < y)
  | _, _ => false

/-- The JS comparison `a >= b`: any comparison involving `NaN` is false. -/
def jsGeB (a b : JsQ) : Bool :=
  match a, b with
  | some x, some y => decide (y ≤ x)
  | _, _ => false

/-- The JS strict equality `a === b` on numbers: `NaN === x` is false. -/
def jsEqB (a b : JsQ) : Bool :=
  match a, b with
  | some x, some y => decide (x = y)
  | _, _ => false

/-- A `vec3` whose components may be `NaN`. -/
structure Vec3J where
  x : JsQ
  y : JsQ
  z : JsQ
deriving DecidableEq, Repr

/-- A quaternion (gl-matrix layout `[x, y, z, w]`) whose components may be
`NaN`. -/
structure QuatJ where
  x : JsQ
  y : JsQ
  z : JsQ
  w : JsQ
deriving DecidableEq, Repr

namespace Vec3J

def zero : Vec3J := ⟨some 0, some 0, some 0⟩

def add (a b : Vec3J) : Vec3J := ⟨jsAdd a.x b.x, jsAdd a.y b.y, jsAdd a.z b.z⟩

def sub (a b : Vec3J) : Vec3J := ⟨jsSub a.x b.x, jsSub a.y b.y, jsSub a.z b.z⟩

def scale (a : Vec3J) (s : JsQ) : Vec3J := ⟨jsMul a.x s, jsMul a.y s, jsMul a.z s⟩

def scaleAndAdd (a b : Vec3J) (s : JsQ) : Vec3J := add a (scale b s)

def dot (a b : Vec3J) : JsQ :=
  jsAdd (jsAdd (jsMul a.x b.x) (jsMul a.y b.y)) (jsMul a.z b.z)

end Vec3J

/-- A 3x3 matrix in gl-matrix column-major layout.  `get` models indexing
into the backing `Float32Array`: an out-of-range index reads `undefined`,
which subsequent arithmetic turns into `NaN` (`none`). -/
structure Mat3J where
  a0 : JsQ
  a1 : JsQ
  a2 : JsQ
  a3 : JsQ
  a4 : JsQ
  a5 : JsQ
  a6 : JsQ
  a7 : JsQ
  a8 : JsQ
deriving DecidableEq, Repr

namespace Mat3J

def get (m : Mat3J) : ℕ → JsQ
  | 0 => m.a0
  | 1 => m.a1
  | 2 => m.a2
  | 3 => m.a3
  | 4 => m.a4
  | 5 => m.a5
  | 6 => m.a6
  | 7 => m.a7
  | 8 => m.a8
  | _ => none

/-- The identity matrix produced by `mat3.create()`. -/
def identity : Mat3J :=
  ⟨some 1, some 0, some 0, some 0, some 1, some 0, some 0, some 0, some 1⟩

end Mat3J

/-- A 4x4 matrix in gl-matrix column-major layout. -/
structure Mat4J where
  b0 : JsQ
  b1 : JsQ
  b2 : JsQ
  b3 : JsQ
  b4 : JsQ
  b5 : JsQ
  b6 : JsQ
  b7 : JsQ
  b8 : JsQ
  b9 : JsQ
  b10 : JsQ
  b11 : JsQ
  b12 : JsQ
  b13 : JsQ
  b14 : JsQ
  b15 : JsQ
deriving DecidableEq, Repr

/-- The identity matrix produced by `mat4.create()`. -/
def Mat4J.identity : Mat4J :=
  ⟨some 1, some 0, some 0, some 0, some 0, some 1, some 0, some 0,
   some 0, some 0, some 1, some 0, some 0, some 0, some 0, some 1⟩

/-- gl-matrix `vec3.transformMat3(out, a, m)`. -/
def transformMat3 (a : Vec3J) (m : Mat3J) : Vec3J :=
  ⟨jsAdd (jsAdd (jsMul a.x (m.get 0)) (jsMul a.y (m.get 3))) (jsMul a.z (m.get 6)),
   jsAdd (jsAdd (jsMul a.x (m.get 1)) (jsMul a.y (m.get 4))) (jsMul a.z (m.get 7)),
   jsAdd (jsAdd (jsMul a.x (m.get 2)) (jsMul a.y (m.get 5))) (jsMul a.z (m.get 8))⟩

/-- gl-matrix `quat.multiply(out, a, b)`. -/
def quatMulJ (a b : QuatJ) : QuatJ :=
  ⟨jsAdd (jsAdd (jsMul a.x b.w) (jsMul a.w b.x)) (jsSub (jsMul a.y b.z) (jsMul a.z b.y)),
   jsAdd (jsAdd (jsMul a.y b.w) (jsMul a.w b.y)) (jsSub (jsMul a.z b.x) (jsMul a.x b.z)),
   jsAdd (jsAdd (jsMul a.z b.w) (jsMul a.w b.z)) (jsSub (jsMul a.x b.y) (jsMul a.y b.x)),
   jsSub (jsSub (jsSub (jsMul a.w b.w) (jsMul a.x b.x)) (jsMul a.y b.y)) (jsMul a.z b.z)⟩

/-- gl-matrix `quat.normalize(out, a)` (the `vec4` normalize): compute the
squared length, invert through `Math.sqrt` only when it is `> 0`, and scale
all four components by the result.  `sqrtJs` models `Math.sqrt`. -/
def quatNormalizeJ (sqrtJs : JsQ → JsQ) (q : QuatJ) : QuatJ :=
  let len := jsAdd (jsAdd (jsAdd (jsMul q.x q.x) (jsMul q.y q.y)) (jsMul q.z q.z)) (jsMul q.w q.w)
  let len1 := if jsLtB (some 0) len then jsDiv (some 1) (sqrtJs len) else len
  ⟨jsMul q.x len1, jsMul q.y len1, jsMul q.z len1, jsMul q.w len1⟩

/-- gl-matrix `quat.squaredLength`, used only in statements about the
orientation norm. -/
def quatLenSqJ (q : QuatJ) : JsQ :=
  jsAdd (jsAdd (jsAdd (jsMul q.x q.x) (jsMul q.y q.y)) (jsMul q.z q.z)) (jsMul q.w q.w)

/-- Embedding of `QuatUtils.addScaledVector` from `src/src/math_utils.ts`:
build the pure quaternion `(vector*scale, 0)`, multiply it by `inQuat` on the
right, and add half of the product to `inQuat`. -/
def quatAddScaledVector (inQuat : QuatJ) (vector : Vec3J) (scale : JsQ) : QuatJ :=
  let q : QuatJ := ⟨jsMul vector.x scale, jsMul vector.y scale, jsMul vector.z scale, some 0⟩
  let q := quatMulJ q inQuat
  ⟨jsAdd inQuat.x (jsMul q.x (some (1/2))),
   jsAdd inQuat.y (jsMul q.y (some (1/2))),
   jsAdd inQuat.z (jsMul q.z (some (1/2))),
   jsAdd inQuat.w (jsMul q.w (some (1/2)))⟩

/-- Embedding of `_calculateTransformMatrix` (`part_000`), which is gl-matrix
`mat4.fromRotationTranslation(out, q, v)`. -/
def calculateTransformMatrix (position : Vec3J) (orientation : QuatJ) : Mat4J :=
  let x2 := jsAdd orientation.x orientation.x
  let y2 := jsAdd orientation.y orientation.y
  let z2 := jsAdd orientation.z orientation.z
  let xx := jsMul orientation.x x2
  let xy := jsMul orientation.x y2
  let xz := jsMul orientation.x z2
  let yy := jsMul orientation.y y2
  let yz := jsMul orientation.y z2
  let zz := jsMul orientation.z z2
  let wx := jsMul orientation.w x2
  let wy := jsMul orientation.w y2
  let wz := jsMul orientation.w z2
  { b0 := jsSub (some 1) (jsAdd yy zz), b1 := jsAdd xy wz, b2 := jsSub xz wy, b3 := some 0
    b4 := jsSub xy wz, b5 := jsSub (some 1) (jsAdd xx zz), b6 := jsAdd yz wx, b7 := some 0
    b8 := jsAdd xz wy, b9 := jsSub yz wx, b10 := jsSub (some 1) (jsAdd xx yy), b11 := some 0
    b12 := position.x, b13 := position.y, b14 := position.z, b15 := some 1 }

/-- Embedding of `_transformInertiaTensor` (`part_000`), transcribed index
for index.  Note `t52` reads `iitBody[9]`, one past the end of the 3x3
backing array: that read yields `undefined` and poisons `t52` (hence world
rows 6..8) with `NaN`.  The quaternion parameter of the source is unused. -/
def transformInertiaTensor (iitBody : Mat3J) (rotmat : Mat4J) : Mat3J :=
  let t4 := jsAdd (jsAdd (jsMul rotmat.b0 (iitBody.get 0)) (jsMul rotmat.b1 (iitBody.get 3))) (jsMul rotmat.b2 (iitBody.get 6))
  let t9 := jsAdd (jsAdd (jsMul rotmat.b0 (iitBody.get 1)) (jsMul rotmat.b1 (iitBody.get 4))) (jsMul rotmat.b2 (iitBody.get 7))
  let t14 := jsAdd (jsAdd (jsMul rotmat.b0 (iitBody.get 2)) (jsMul rotmat.b1 (iitBody.get 5))) (jsMul rotmat.b2 (iitBody.get 8))
  let t28 := jsAdd (jsAdd (jsMul rotmat.b4 (iitBody.get 0)) (jsMul rotmat.b5 (iitBody.get 3))) (jsMul rotmat.b6 (iitBody.get 6))
  let t33 := jsAdd (jsAdd (jsMul rotmat.b4 (iitBody.get 1)) (jsMul rotmat.b5 (iitBody.get 4))) (jsMul rotmat.b6 (iitBody.get 7))
  let t38 := jsAdd (jsAdd (jsMul rotmat.b4 (iitBody.get 2)) (jsMul rotmat.b5 (iitBody.get 5))) (jsMul rotmat.b6 (iitBody.get 8))
  let t52 := jsAdd (jsAdd (jsMul rotmat.b8 (iitBody.get 0)) (jsMul rotmat.b9 (iitBody.get 9))) (jsMul rotmat.b10 (iitBody.get 6))
  let t57 := jsAdd (jsAdd (jsMul rotmat.b8 (iitBody.get 1)) (jsMul rotmat.b9 (iitBody.get 4))) (jsMul rotmat.b10 (iitBody.get 7))
  let t62 := jsAdd (jsAdd (jsMul rotmat.b8 (iitBody.get 2)) (jsMul rotmat.b9 (iitBody.get 5))) (jsMul rotmat.b10 (iitBody.get 8))
  { a0 := jsAdd (jsAdd (jsMul t4 rotmat.b0) (jsMul t9 rotmat.b1)) (jsMul t14 rotmat.b2)
    a1 := jsAdd (jsAdd (jsMul t4 rotmat.b4) (jsMul t9 rotmat.b5)) (jsMul t14 rotmat.b6)
    a2 := jsAdd (jsAdd (jsMul t4 rotmat.b8) (jsMul t9 rotmat.b9)) (jsMul t14 rotmat.b10)
    a3 := jsAdd (jsAdd (jsMul t28 rotmat.b0) (jsMul t33 rotmat.b1)) (jsMul t38 rotmat.b2)
    a4 := jsAdd (jsAdd (jsMul t28 rotmat.b4) (jsMul t33 rotmat.b5)) (jsMul t38 rotmat.b6)
    a5 := jsAdd (jsAdd (jsMul t28 rotmat.b8) (jsMul t33 rotmat.b9)) (jsMul t38 rotmat.b10)
    a6 := jsAdd (jsAdd (jsMul t52 rotmat.b0) (jsMul t57 rotmat.b1)) (jsMul t62 rotmat.b2)
    a7 := jsAdd (jsAdd (jsMul t52 rotmat.b4) (jsMul t57 rotmat.b5)) (jsMul t62 rotmat.b6)
    a8 := jsAdd (jsAdd (jsMul t52 rotmat.b8) (jsMul t57 rotmat.b9)) (jsMul t62 rotmat.b10) }

/-- The global sleep threshold of `part_000` (`const sleepEpsilon = 0.3`). -/
def sleepEpsilon : ℚ := 3 / 10

/-- The rigid-body state of `part_000`, under the NaN-propagating number
model (`JsQ`), since its derived-data pipeline reads one slot past the end of
the body-space inertia tensor and manufactures `NaN`s. -/
structure RigidBody where
  inverseMass : JsQ
  inverseInertiaTensor : Mat3J
  linearDamping : JsQ
  angularDamping : JsQ
  position : Vec3J
  orientation : QuatJ
  velocity : Vec3J
  rotation : Vec3J
  inverseInertiaTensorWorld : Mat3J
  motion : JsQ
  isAwake : Bool
  canSleep : Bool
  transformMatrix : Mat4J
  forceAccum : Vec3J
  torqueAccum : Vec3J
  acceleration : Vec3J
  lastFrameAcceleration : Vec3J
deriving DecidableEq, Repr

namespace RigidBody

/-- A freshly constructed `RigidBody` with the field initialisers of
`part_000` (dampings default to `0.1`, matrices to identity, `isAwake` and
`canSleep` to `false`). -/
def fresh : RigidBody :=
  { inverseMass := some 0
    inverseInertiaTensor := Mat3J.identity
    linearDamping := some (1/10)
    angularDamping := some (1/10)
    position := Vec3J.zero
    orientation := ⟨some 0, some 0, some 0, some 1⟩
    velocity := Vec3J.zero
    rotation := Vec3J.zero
    inverseInertiaTensorWorld := Mat3J.identity
    motion := some 0
    isAwake := false
    canSleep := false
    transformMatrix := Mat4J.identity
    forceAccum := Vec3J.zero
    torqueAccum := Vec3J.zero
    acceleration := Vec3J.zero
    lastFrameAcceleration := Vec3J.zero }

/-- Embedding of `RigidBody.hasFiniteMass()`: the source returns
`this.inverseMass >= 0.0`. -/
def hasFiniteMass (b : RigidBody) : Bool := jsGeB b.inverseMass (some 0)

/-- Embedding of `RigidBody.setAwake(awake)`.  In the source the `true`
branch sets `isAwake` and then contains the bare expression statement
`this.motion` (the intended bump of `motion` was never written), and the
`false` branch is an empty block: neither branch touches `motion`,
`velocity`, `rotation`, and the `false` branch does not even clear
`isAwake`. -/
def setAwake (awake : Bool) (b : RigidBody) : RigidBody :=
  if awake then { b with isAwake := true } else b

/-- Embedding of `RigidBody.calculateDerivedData()`: normalize the
orientation in place, rebuild the transform matrix, rebuild the world-space
inverse inertia tensor. -/
def calculateDerivedData (sqrtJs : JsQ → JsQ) (b : RigidBody) : RigidBody :=
  let orientation := quatNormalizeJ sqrtJs b.orientation
  let tm := calculateTransformMatrix b.position orientation
  let iitW := transformInertiaTensor b.inverseInertiaTensor tm
  { b with orientation := orientation, transformMatrix := tm
           inverseInertiaTensorWorld := iitW }

/-- Embedding of `RigidBody.integrate(duration)` from `part_000`.  `powJs`
models `Math.pow` (dampings and the sleep bias), `sqrtJs` models `Math.sqrt`
(orientation normalisation).  In the sleep block the source computes
`currentMotion` and `bias` but the recency-weighted blend
`motion = bias*motion + (1-bias)*currentMotion` is never assigned; only the
threshold test (through the stub `setAwake(false)`) and the ceiling clamp
touch the state. -/
def integrate (powJs : JsQ → JsQ → JsQ) (sqrtJs : JsQ → JsQ) (duration : ℚ)
    (b : RigidBody) : RigidBody :=
  if ¬ b.isAwake then b
  else
    let lastFrameAcceleration := b.acceleration
    let lastFrameAcceleration :=
      Vec3J.scaleAndAdd lastFrameAcceleration b.forceAccum b.inverseMass
    let angularAcceleration := transformMat3 b.torqueAccum b.inverseInertiaTensorWorld
    let velocity := Vec3J.scaleAndAdd b.velocity lastFrameAcceleration (some duration)
    let rotation := Vec3J.scaleAndAdd b.rotation angularAcceleration (some duration)
    let velocity := Vec3J.scale velocity (powJs b.linearDamping (some duration))
    let rotation := Vec3J.scale rotation (powJs b.angularDamping (some duration))
    let position := Vec3J.scaleAndAdd b.position velocity (some duration)
    let orientation := quatAddScaledVector b.orientation rotation (some duration)
    let b1 := { b with lastFrameAcceleration := lastFrameAcceleration
                       velocity := velocity, rotation := rotation
                       position := position, orientation := orientation }
    let b2 := calculateDerivedData sqrtJs b1
    let b3 := { b2 with forceAccum := Vec3J.zero, torqueAccum := Vec3J.zero }
    if b3.canSleep then
      let _currentMotion :=
        jsAdd (Vec3J.dot b3.velocity b3.velocity) (Vec3J.dot b3.rotation b3.rotation)
      let _bias := powJs (some (1/2)) (some duration)
      -- the blend of _bias and _currentMotion into motion is absent from the source
      if jsLtB b3.motion (some sleepEpsilon) then setAwake false b3
      else if jsLtB (some (10 * sleepEpsilon)) b3.motion then
        { b3 with motion := some (10 * sleepEpsilon) }
      else b3
    else b3

end RigidBody

/-- The particle state under the NaN-propagating number model, used by the
`ParticleFakeSpring` embedding, whose arithmetic can produce `NaN`. -/
structure ParticleJs where
  inverseMass : JsQ
  damping : JsQ
  position : Vec3J
  velocity : Vec3J
  forceAccum : Vec3J
  acceleration : Vec3J
deriving DecidableEq, Repr

namespace ParticleJs

/-- `Particle.hasFiniteMass()` under the JS number model. -/
def hasFiniteMass (p : ParticleJs) : Bool := jsGeB p.inverseMass (some 0)

/-- `Particle.getMass()`: returns `Infinity` when `inverseMass == 0`
(conflated with `none`), else `1 / inverseMass`. -/
def getMass (p : ParticleJs) : JsQ :=
  match p.inverseMass with
  | some im => if im = 0 then none else some (1 / im)
  | none => none

/-- `Particle.addForce(force)` under the JS number model. -/
def addForce (f : Vec3J) (p : ParticleJs) : ParticleJs :=
  { p with forceAccum := Vec3J.add p.forceAccum f }

end ParticleJs

/-- The configuration of a `ParticleFakeSpring` generator (`part_001`). -/
structure ParticleFakeSpring where
  anchor : Vec3J
  springConstant : JsQ
  damping : JsQ
deriving DecidableEq, Repr

namespace ParticleFakeSpring

/-- Embedding of `ParticleFakeSpring.updateForce(particle, duration)`.

`sqrtJs`, `cosJs`, `sinJs`, `expJs` model `Math.sqrt` / `Math.cos` /
`Math.sin` / `Math.exp`.  The guard is the literal `gamma === 0` of the
source: when the discriminant `4k - d^2` is negative, `Math.sqrt` returns
`NaN`, the guard is false (a `NaN` comparison), and the computation
continues on `NaN` data.  The binding `_tempVec1` mirrors the source value
`tempVec3 = c * sin(gamma*duration)` that is computed at line 291 but never
added into `target` (the `vec3.add` of the book is missing); it is dead. -/
def updateForce (sqrtJs cosJs sinJs expJs : JsQ → JsQ)
    (fs : ParticleFakeSpring) (p : ParticleJs) (duration : JsQ) : ParticleJs :=
  if ¬ p.hasFiniteMass then p
  else
    let position := Vec3J.sub p.position fs.anchor
    let gamma := jsMul (some (1/2))
      (sqrtJs (jsSub (jsMul (some 4) fs.springConstant) (jsMul fs.damping fs.damping)))
    if jsEqB gamma (some 0) then p
    else
      let c := Vec3J.scale position (jsDiv fs.damping (jsMul (some 2) gamma))
      let tempVec := Vec3J.scale p.velocity (jsDiv (some 1) gamma)
      let c := Vec3J.add c tempVec
      let target := Vec3J.scale position (cosJs (jsMul gamma duration))
      let _tempVec1 := Vec3J.scale c (sinJs (jsMul gamma duration))
      let target := Vec3J.scale target
        (expJs (jsMul (jsMul (some (-(1/2))) duration) fs.damping))
      let accel := Vec3J.sub target position
      let accel := Vec3J.scale accel (jsDiv (some 1) (jsMul duration duration))
      let tempVec2 := Vec3J.scale p.velocity (jsDiv (some 1) duration)
      let accel := Vec3J.sub accel tempVec2
      p.addForce (Vec3J.scale accel p.getMass)

end ParticleFakeSpring

/-- Definition following the words of claim C1 (spec step 4), not the
source, for comparison with the transcribed coupling step: the adjustment a
single particle slot `s` receives is the dot product of the recorded
movement of the resolved endpoint it matches with the contact's own normal,
and the contact's penetration is decreased by the adjustment of each of its
slots, exactly once per matching slot. -/
def slotAdjustPerClaim (m0 m1 : V3) (r0 : ℕ) (r1 : Option ℕ) (n : V3) (s : ℕ) : ℚ :=
  if s = r0 then V3.dot m0 n
  else if some s = r1 then V3.dot m1 n
  else 0

/-- The per-contact coupling update prescribed by the words of claim C1:
subtract the matching-slot adjustments of both slots from the penetration. -/
def coupleOnePerClaim (m0 m1 : V3) (r0 : ℕ) (r1 : Option ℕ)
    (c : ParticleContact) : ParticleContact :=
  { c with penetration := c.penetration
      - slotAdjustPerClaim m0 m1 r0 r1 c.contactNormal c.p0
      - (match c.p1 with
         | some q => slotAdjustPerClaim m0 m1 r0 r1 c.contactNormal q
         | none => 0) }

/-- The net penetration change actually performed by the source coupling
loop on one contact (both recorded movements present), collapsing the
duplicated branch structure of pcontacts.ts lines 242-260: a slot-0 match of
endpoint 0 subtracts `m0 . n`; a slot-0 match of endpoint 1 subtracts
`m1 . n`, and subtracts it a second time when slot 1 is present and differs
from endpoint 0; a slot-1 match of endpoint 0 contributes nothing (its
subtraction is immediately cancelled by the duplicated addition); otherwise a
slot-1 match of endpoint 1 adds `m1 . n`. -/
def coupleOneNet (m0 m1 : V3) (r0 : ℕ) (r1 : Option ℕ) (c : ParticleContact) : ℚ :=
  let d0 := V3.dot m0 c.contactNormal
  let d1 := V3.dot m1 c.contactNormal
  let first := if c.p0 = r0 then -d0 else if some c.p0 = r1 then -d1 else 0
  match c.p1 with
  | none => first
  | some q =>
    let second := if q = r0 then -d0 else if some c.p0 = r1 then -d1 else 0
    let third := if q = r0 then d0 else if some q = r1 then d1 else 0
    first + second + third

/-- The selection predicate of the resolver loop: a contact still qualifies
for resolution while it is closing (`sepVel < 0`) or penetrating
(`penetration > 0`); the resolver is converged exactly when no contact
qualifies. -/
def qualB (ps : List Particle) (c : ParticleContact) : Bool :=
  decide (ParticleContact.calcSepVel ps c < 0) || decide (0 < c.penetration)

/-- The number of contacts of the batch that still qualify. -/
def badCount (ps : List Particle) (cs : List ParticleContact) : ℕ :=
  cs.countP (qualB ps)

/-- The particle indices referenced by the slots of a contact. -/
def ParticleContact.refs (c : ParticleContact) : List ℕ :=
  c.p0 :: (match c.p1 with | some j => [j] | none => [])

/-- No particle is referenced by two different contacts of the batch (the
mutual-disjointness hypothesis of claim C2). -/
def DisjointContacts (cs : List ParticleContact) : Prop :=
  ∀ i k, i < cs.length → k < cs.length → i ≠ k →
    ∀ x, x ∈ (cs.getD i default).refs → x ∉ (cs.getD k default).refs

/-- The well-formedness of a batch assumed by claim C2 together with the
data-model invariants of the spec (both slots present and distinct, indices
valid, finite masses, unit normals, non-negative restitution) and the
amendment forced by the uninitialised `particleMovement` slots: a contact
that is still closing must also be penetrating, so that the movement slots
are always written before the coupling step reads them. -/
structure BatchInv (ps : List Particle) (cs : List ParticleContact) : Prop where
  twoSlots : ∀ i, i < cs.length →
    ∃ b, (cs.getD i default).p1 = some b ∧ (cs.getD i default).p0 ≠ b
  bounded : ∀ i, i < cs.length →
    ∀ x ∈ (cs.getD i default).refs, x < ps.length
  finiteMasses : ∀ i, i < cs.length →
    ∀ x ∈ (cs.getD i default).refs, 0 < (getP ps x).inverseMass
  unitNormal : ∀ i, i < cs.length →
    V3.dot (cs.getD i default).contactNormal (cs.getD i default).contactNormal = 1
  restitutionNonneg : ∀ i, i < cs.length → 0 ≤ (cs.getD i default).restitution
  closingPenetrates : ∀ i, i < cs.length →
    ParticleContact.calcSepVel ps (cs.getD i default) < 0 →
    0 < (cs.getD i default).penetration

/-! Helper lemmas. -/

theorem V3.dot_add_left (a b n : V3) :
    V3.dot (V3.add a b) n = V3.dot a n + V3.dot b n := by
  simp only [V3.dot, V3.add]; ring

theorem V3.dot_sub_left (a b n : V3) :
    V3.dot (V3.sub a b) n = V3.dot a n - V3.dot b n := by
  simp only [V3.dot, V3.sub]; ring

theorem V3.dot_scale_left (a : V3) (s : ℚ) (n : V3) :
    V3.dot (V3.scale a s) n = s * V3.dot a n := by
  simp only [V3.dot, V3.scale]; ring

theorem getP_setP_self (ps : List Particle) (i : ℕ) (p : Particle)
    (h : i < ps.length) : getP (setP ps i p) i = p := by
  simp [getP, setP, List.getD, List.getElem?_set_self, h]

theorem getP_setP_ne (ps : List Particle) (i k : ℕ) (p : Particle)
    (h : i ≠ k) : getP (setP ps i p) k = getP ps k := by
  simp [getP, setP, List.getD, List.getElem?_set_ne, h]

theorem length_setP (ps : List Particle) (i : ℕ) (p : Particle) :
    (setP ps i p).length = ps.length := by
  simp [setP]

/-! Claim theorems. -/

/-- C10: a resolver built by the constructor has an undefined `iterations`
bound no matter what argument was passed, and `resolveContacts` on such a
resolver performs zero iterations on every input: `iterationsUsed` ends `0`
and every contact and particle of the batch is unchanged, until the caller
assigns the public `iterations` field directly. -/
theorem c10_constructed_resolver_runs_zero_iterations (arg : Option ℚ)
    (cs : List ParticleContact) (n : ℕ) (duration : ℚ) (ps : List Particle) :
    (ParticleContactResolver.make arg).iterations = none ∧
    ParticleContactResolver.resolveContacts (ParticleContactResolver.make arg)
        cs n duration ps
      = .ok ({ iterations := none, iterationsUsed := some 0 }, ps, cs) :=
  ⟨rfl, rfl⟩

/-- C8 (code bug): `hasFiniteMass` is claimed to be `inverseMass > 0`, false
at `inverseMass == 0`; both implementations instead return
`inverseMass >= 0`, so a zero inverse mass (the documented encoding of an
infinite, immovable mass) is reported as finite by `Particle.hasFiniteMass`
and by `RigidBody.hasFiniteMass` (evaluated here on a fresh body, whose
inverse mass is `0`). -/
theorem c8_hasFiniteMass_true_at_zero_inverse_mass :
    Particle.hasFiniteMass
        { inverseMass := 0, damping := 0, position := V3.zero, velocity := V3.zero
          forceAccum := V3.zero, acceleration := V3.zero } = true ∧
    RigidBody.fresh.inverseMass = some 0 ∧
    RigidBody.hasFiniteMass RigidBody.fresh = true := by
  refine ⟨?_, rfl, ?_⟩ <;>
    norm_num [Particle.hasFiniteMass, RigidBody.hasFiniteMass, RigidBody.fresh, jsGeB]

/-- C6 (code bug): `Particle.integrate` is claimed to leave the stored
`acceleration` unchanged, but the source aliases the step-acceleration
buffer to the stored vector, so the force contribution is written into the
persistent field: with inverse mass 1, pending force `(1,0,0)`, zero initial
acceleration, damping 1 and duration 1 (`Math.pow` instantiated at its exact
exponent-1 value), the stored acceleration after the call is `(1,0,0)`, not
the original `(0,0,0)`. -/
theorem c6_integrate_mutates_stored_acceleration :
    (Particle.integrate (fun base _ => base) 1
        { inverseMass := 1, damping := 1, position := V3.zero, velocity := V3.zero
          forceAccum := ⟨1, 0, 0⟩, acceleration := V3.zero }).acceleration
      = ⟨1, 0, 0⟩ ∧ (⟨1, 0, 0⟩ : V3) ≠ V3.zero := by
  refine ⟨?_, ?_⟩ <;>
    norm_num [Particle.integrate, V3.scaleAndAdd, V3.add, V3.scale, V3.zero]

/-- C7 (code bug): `ParticleGravity.updateForce` is claimed to add
`gravity * mass` for finite-mass particles, nothing for infinite-mass ones,
and to never change its own stored vector.  The source instead scales its
stored gravity vector in place by `duration` and adds that: with gravity
`(0,-10,0)`, a particle of mass 2 (inverse mass 1/2) and duration 1/2, the
generator's stored vector becomes `(0,-5,0)` and the force added is
`(0,-5,0)`, not the claimed `(0,-20,0) = gravity * mass`; and a particle
with `inverseMass = 0` (infinite mass) still receives the force, because
`hasFiniteMass` is `>= 0`. -/
theorem c7_gravity_rescales_itself_and_ignores_infinite_mass :
    (ParticleGravity.updateForce ⟨⟨0, -10, 0⟩⟩
        { inverseMass := 1/2, damping := 0, position := V3.zero, velocity := V3.zero
          forceAccum := V3.zero, acceleration := V3.zero } (1/2)).1.gravity
      = ⟨0, -5, 0⟩ ∧
    (ParticleGravity.updateForce ⟨⟨0, -10, 0⟩⟩
        { inverseMass := 1/2, damping := 0, position := V3.zero, velocity := V3.zero
          forceAccum := V3.zero, acceleration := V3.zero } (1/2)).2.forceAccum
      = ⟨0, -5, 0⟩ ∧
    (⟨0, -5, 0⟩ : V3) ≠ ⟨0, -10, 0⟩ ∧
    (⟨0, -5, 0⟩ : V3) ≠ V3.scale ⟨0, -10, 0⟩ 2 ∧
    (ParticleGravity.updateForce ⟨⟨0, -10, 0⟩⟩
        { inverseMass := 0, damping := 0, position := V3.zero, velocity := V3.zero
          forceAccum := V3.zero, acceleration := V3.zero } (1/2)).2.forceAccum
      = ⟨0, -5, 0⟩ := by
  refine ⟨?_, ?_, ?_, ?_, ?_⟩ <;>
    norm_num [ParticleGravity.updateForce, Particle.hasFiniteMass,
      Particle.addForce, V3.add, V3.scale, V3.zero]

/-- C4 (code bug): `RigidBody.integrate` is claimed to store the blend
`bias*motion + (1-bias)*currentMotion` back into `motion` and to put the
body to sleep (zeroing velocity and rotation) below the threshold.  The
source computes `currentMotion` and `bias` but never assigns the blend, and
`setAwake(false)` is an empty stub.  With `Math.pow` instantiated at its
exact exponent-1 values and duration 1: an awake, can-sleep body with
`motion = 1/2` and velocity `(1,0,0)` keeps `motion = 1/2` (the claimed
blend would be `1/2 * 1/2 + 1/2 * (1/10)^2 = 51/200`), and a body with
`motion = 1/10`, below the threshold `3/10`, stays awake with its damped
velocity `(1/10,0,0)` instead of transitioning to sleep with zeroed
velocity. -/
theorem c4_sleep_blend_never_stored_and_sleep_transition_stubbed :
    (RigidBody.integrate (fun base _ => base) (fun x => x) 1
        { RigidBody.fresh with
          isAwake := true, canSleep := true,
          motion := some (1/2), velocity := ⟨some 1, some 0, some 0⟩ }).motion
      = some (1/2) ∧
    ((1 : ℚ)/2 ≠ 51/200) ∧
    (RigidBody.integrate (fun base _ => base) (fun x => x) 1
        { RigidBody.fresh with
          isAwake := true, canSleep := true,
          motion := some (1/10), velocity := ⟨some 1, some 0, some 0⟩ }).isAwake
      = true ∧
    (RigidBody.integrate (fun base _ => base) (fun x => x) 1
        { RigidBody.fresh with
          isAwake := true, canSleep := true,
          motion := some (1/10), velocity := ⟨some 1, some 0, some 0⟩ }).velocity
      = ⟨some (1/10), some 0, some 0⟩ := by
  refine ⟨?_, ?_, ?_, ?_⟩ <;>
    norm_num [RigidBody.integrate, RigidBody.calculateDerivedData,
      RigidBody.setAwake, RigidBody.fresh, quatNormalizeJ, quatAddScaledVector,
      quatMulJ, calculateTransformMatrix, transformInertiaTensor, transformMat3,
      Mat3J.get, Mat3J.identity, Mat4J.identity, Vec3J.zero, Vec3J.add,
      Vec3J.sub, Vec3J.scale, Vec3J.scaleAndAdd, Vec3J.dot, jsAdd, jsSub,
      jsMul, jsDiv, jsLtB, jsGeB, jsEqB, sleepEpsilon]

/-- C5 (code bug): the orientation is claimed to have unit norm after every
sequence of `integrate` calls with positive duration.  In
`calculateDerivedData`, `_transformInertiaTensor` reads `iitBody[9]` (one
slot past the end of the 3x3 backing array) in its `t52` term, so rows 6..8
of the world inverse inertia tensor are `NaN` after the first call; the
second `integrate` pulls that `NaN` through the angular acceleration into
the rotation and then the orientation, and `quat.normalize` leaves a `NaN`
quaternion unchanged because its `len > 0` guard is false on `NaN`.
Starting from a fresh awake body, two calls of `integrate(1)` leave every
orientation component `NaN` and the squared norm `NaN`, not 1. -/
theorem c5_orientation_nan_after_two_integrates :
    (RigidBody.integrate (fun base _ => base) (fun x => x) 1
        (RigidBody.integrate (fun base _ => base) (fun x => x) 1
          { RigidBody.fresh with isAwake := true })).orientation
      = ⟨none, none, none, none⟩ ∧
    quatLenSqJ (RigidBody.integrate (fun base _ => base) (fun x => x) 1
        (RigidBody.integrate (fun base _ => base) (fun x => x) 1
          { RigidBody.fresh with isAwake := true })).orientation
      = none := by
  refine ⟨?_, ?_⟩ <;>
    norm_num [RigidBody.integrate, RigidBody.calculateDerivedData,
      RigidBody.setAwake, RigidBody.fresh, quatNormalizeJ, quatAddScaledVector,
      quatMulJ, quatLenSqJ, calculateTransformMatrix, transformInertiaTensor,
      transformMat3, Mat3J.get, Mat3J.identity, Mat4J.identity, Vec3J.zero,
      Vec3J.add, Vec3J.sub, Vec3J.scale, Vec3J.scaleAndAdd, Vec3J.dot, jsAdd,
      jsSub, jsMul, jsDiv, jsLtB, jsGeB, jsEqB, sleepEpsilon]

/-- C1 (counterexample): a batch of one contact between particles 0 and 1
(masses 1, restitution 0, unit normal `(1,0,0)`, penetration `1/10`,
closing at speed 1) resolved with the `iterations` field assigned `1`.  The
claim's rule (penetration decreased by the dot of the matching resolved
movement with the contact's own normal, once per matching slot, and changed
in no other way) predicts a final penetration of
`1/10 - 1/20 - (-1/20) = 1/10`; the code produces `0`. -/
theorem c1_counterexample_single_contact :
    ParticleContactResolver.resolveContacts ⟨some 1, none⟩
        [{ p0 := 0, p1 := some 1, restitution := 0, contactNormal := ⟨1, 0, 0⟩,
           penetration := 1/10, movement0 := none, movement1 := none }] 1 1
        [{ inverseMass := 1, damping := 0, position := V3.zero,
           velocity := ⟨-1, 0, 0⟩, forceAccum := V3.zero, acceleration := V3.zero },
         { inverseMass := 1, damping := 0, position := V3.zero,
           velocity := V3.zero, forceAccum := V3.zero, acceleration := V3.zero }]
      = .ok (⟨some 1, some 1⟩,
          [{ inverseMass := 1, damping := 0, position := ⟨1/20, 0, 0⟩,
             velocity := ⟨-(1/2), 0, 0⟩, forceAccum := V3.zero, acceleration := V3.zero },
           { inverseMass := 1, damping := 0, position := ⟨-(1/20), 0, 0⟩,
             velocity := ⟨-(1/2), 0, 0⟩, forceAccum := V3.zero, acceleration := V3.zero }],
          [{ p0 := 0, p1 := some 1, restitution := 0, contactNormal := ⟨1, 0, 0⟩,
             penetration := 0, movement0 := some ⟨1/20, 0, 0⟩,
             movement1 := some ⟨-(1/20), 0, 0⟩ }]) ∧
    (coupleOnePerClaim ⟨1/20, 0, 0⟩ ⟨-(1/20), 0, 0⟩ 0 (some 1)
        { p0 := 0, p1 := some 1, restitution := 0, contactNormal := ⟨1, 0, 0⟩,
          penetration := 1/10, movement0 := some ⟨1/20, 0, 0⟩,
          movement1 := some ⟨-(1/20), 0, 0⟩ }).penetration = 1/10 ∧
    (0 : ℚ) ≠ 1/10 := by
  refine ⟨?_, ?_, ?_⟩
  · norm_num [ParticleContactResolver.resolveContacts,
      ParticleContactResolver.goResolve, ParticleContactResolver.iterBody,
      ParticleContactResolver.jsLt, findWorst, findWorstStep,
      ParticleContact.resolve,
      ParticleContact.resolveVelocity, ParticleContact.resolveInterpenetration,
      ParticleContact.calcSepVel, coupleAll, coupleOne, jsDotM, getP, setP,
      V3.dot, V3.sub, V3.add, V3.scale, V3.scaleAndAdd, V3.zero,
      Bind.bind, Except.bind, Pure.pure, Except.pure, List.range_succ,
      List.getD, List.set, ltMax,
      Nat.ceil_one, List.getElem?_cons_zero, List.getElem?_cons_succ,
      Option.getD_some, Option.getD_none]
  · norm_num [coupleOnePerClaim, slotAdjustPerClaim, V3.dot]
  · norm_num

/-- C3 (counterexample): the claimed scenario itself — one particle of mass
1 against scenery (`particles[1]` absent), unit normal, penetration `1/10` —
applied to a freshly produced contact (whose `particleMovement` array is
empty, as initialised in the source) makes `resolveInterpenetration` throw:
the scenery branch executes `vec3.zero(this.particleMovement[1])` on an
absent slot before the position update is applied, so the particle is not
moved, no zero movement is recorded, and the penetration is unchanged. -/
theorem c3_counterexample_fresh_scenery_contact_throws :
    ParticleContact.resolveInterpenetration
        [{ inverseMass := 1, damping := 0, position := V3.zero, velocity := V3.zero,
           forceAccum := V3.zero, acceleration := V3.zero }]
        { p0 := 0, p1 := none, restitution := 0, contactNormal := ⟨1, 0, 0⟩,
          penetration := 1/10, movement0 := none, movement1 := none } 1
      = .error () := by
  norm_num [ParticleContact.resolveInterpenetration, getP, setP, V3.scale,
    V3.add, V3.zero, List.getD, List.getElem?_cons_zero, Option.getD_some]

theorem coupleOne_some_eq (m0 m1 : V3) (r0 : ℕ) (r1 : Option ℕ)
    (c : ParticleContact) :
    coupleOne (some m0) (some m1) r0 r1 c
      = .ok { c with penetration := c.penetration + coupleOneNet m0 m1 r0 r1 c } := by
  obtain ⟨p0, p1, rest, n, pen, mv0, mv1⟩ := c
  unfold coupleOne coupleOneNet jsDotM
  cases p1 <;>
    simp only [bind, Except.bind, pure, Except.pure] <;>
    split_ifs <;>
    simp_all <;>
    ring_nf

theorem coupleAll_some_ok (m0 m1 : V3) (r0 : ℕ)
    (r1 : Option ℕ) (k : ℕ) (cs : List ParticleContact) (hk : k ≤ cs.length) :
    ∃ cs2, coupleAll (some m0) (some m1) r0 r1 k cs = .ok cs2 ∧
      cs2.length = cs.length ∧
      ∀ i : ℕ, cs2.getD i default =
        if i < k then
          { cs.getD i default with penetration := ((cs.getD i default).penetration
              + coupleOneNet m0 m1 r0 r1 (cs.getD i default)) }
        else cs.getD i default := by
  induction cs generalizing k with
  | nil =>
    have hk0 : k = 0 := by simpa using hk
    subst hk0
    exact ⟨[], rfl, rfl, fun i => by simp⟩
  | cons c cs ih =>
    match k with
    | 0 => exact ⟨c :: cs, rfl, rfl, fun i => by simp⟩
    | k + 1 =>
      have hk1 : k ≤ cs.length := Nat.succ_le_succ_iff.mp hk
      obtain ⟨cs2, h1, h2, h3⟩ := ih k hk1
      refine ⟨{ c with penetration := c.penetration + coupleOneNet m0 m1 r0 r1 c } :: cs2,
        ?_, by simpa using h2, ?_⟩
      · show coupleAll (some m0) (some m1) r0 r1 (k + 1) (c :: cs) = _
        rw [coupleAll, coupleOne_some_eq]
        simp only [bind, Except.bind, h1, pure, Except.pure]
      · intro i
        match i with
        | 0 => simp
        | i + 1 =>
          simp only [List.getD_cons_succ, Nat.add_lt_add_iff_right]
          exact h3 i

/-- C1 (amended): in the coupling step the code applies, to each of the
first `k` contacts of the batch, exactly the net penetration change
`coupleOneNet` (and changes nothing else): the slot-0 subtraction of the
claim survives, but a slot-0 match of the resolved endpoint 1 is applied a
second time when slot 1 is present and differs from endpoint 0, a slot-1
match of endpoint 0 nets to zero (its subtraction is cancelled by the
duplicated addition), and a slot-1 match of endpoint 1 adds `m1 . n` instead
of subtracting it. -/
theorem c1_amended_coupling_applies_net_change (m0 m1 : V3) (r0 : ℕ)
    (r1 : Option ℕ) (k : ℕ) (cs : List ParticleContact) (hk : k ≤ cs.length) :
    ∃ cs2, coupleAll (some m0) (some m1) r0 r1 k cs = .ok cs2 ∧
      cs2.length = cs.length ∧
      ∀ i : ℕ, cs2.getD i default =
        if i < k then
          { cs.getD i default with penetration := ((cs.getD i default).penetration
              + coupleOneNet m0 m1 r0 r1 (cs.getD i default)) }
        else cs.getD i default :=
  coupleAll_some_ok m0 m1 r0 r1 k cs hk

theorem c1_amended_coupling_applies_net_change_witness :
    let c0 : ParticleContact :=
      { p0 := 0, p1 := some 1, restitution := 0, contactNormal := ⟨1, 0, 0⟩,
        penetration := 1/10, movement0 := none, movement1 := none }
    (1 : ℕ) ≤ [c0].length ∧
    ∃ cs2, coupleAll (some ⟨1/20, 0, 0⟩) (some ⟨-(1/20), 0, 0⟩) 0 (some 1) 1 [c0]
        = .ok cs2 ∧
      cs2.length = [c0].length ∧
      ∀ i : ℕ, cs2.getD i default =
        if i < 1 then
          { [c0].getD i default with penetration := (([c0].getD i default).penetration
              + coupleOneNet ⟨1/20, 0, 0⟩ ⟨-(1/20), 0, 0⟩ 0 (some 1) ([c0].getD i default)) }
        else [c0].getD i default := by
  intro c0
  exact ⟨by simp, c1_amended_coupling_applies_net_change ⟨1/20, 0, 0⟩
    ⟨-(1/20), 0, 0⟩ 0 (some 1) 1 [c0] (by simp)⟩

/-- C3 (amended): for a scenery contact whose `particleMovement[1]` slot is
present (pre-initialised), with one particle of mass 1, penetration `1/10`
and normal `n` (unit in the scenario), one `resolveInterpenetration` call
moves the particle by `1/10` along the normal, overwrites
`particleMovement[1]` with the zero vector in place, records
`particleMovement[0] = n * (1/10)`, and leaves the `penetration` field
unchanged at `1/10` — that field is only adjusted later, by the resolver's
coupling step. -/
theorem c3_amended_scenery_interpenetration_moves_particle (n pos w : V3) :
    (ParticleContact.resolveInterpenetration
        [{ inverseMass := 1, damping := 0, position := pos, velocity := V3.zero,
           forceAccum := V3.zero, acceleration := V3.zero }]
        { p0 := 0, p1 := none, restitution := 0, contactNormal := n,
          penetration := 1/10, movement0 := none, movement1 := some w } 1).toOption.map
        (fun r => ((getP r.1 0).position, r.2.movement0, r.2.movement1, r.2.penetration))
      = some (V3.add pos (V3.scale n (1/10)), some (V3.scale n (1/10)),
          some V3.zero, 1/10) := by
  norm_num [ParticleContact.resolveInterpenetration, getP, setP, V3.scale,
    V3.add, V3.zero, Except.toOption, List.getD]

/-- C9 (code bug): the generator is claimed to be a no-op whenever the
discriminant `4*springConstant - damping^2` is non-positive.  The source
guard is `gamma === 0`: at a discriminant of exactly zero it does return,
but for a strictly negative discriminant `Math.sqrt` returns `NaN`, the
`===` comparison is false, and the computation proceeds on `NaN` data, so
the particle's force accumulator is overwritten with `NaN` components — the
call is not a no-op and silently corrupts the particle.  The hypotheses pin
the relevant `Math` behaviour: the square root of a negative number is
`NaN`, and the cosine of `NaN` is `NaN`. -/
theorem c9_fakespring_negative_discriminant_corrupts_force
    (sqrtJs cosJs sinJs expJs : JsQ → JsQ)
    (hsqrt : ∀ x : ℚ, x < 0 → sqrtJs (some x) = none)
    (hcos : cosJs none = none)
    (anchor : Vec3J) (k d : ℚ) (hdisc : 4 * k - d * d < 0)
    (p : ParticleJs) (hmass : p.hasFiniteMass = true)
    (fx : ℚ) (hfx : p.forceAccum.x = some fx) (duration : JsQ) :
    (ParticleFakeSpring.updateForce sqrtJs cosJs sinJs expJs
        ⟨anchor, some k, some d⟩ p duration).forceAccum = ⟨none, none, none⟩ ∧
    (ParticleFakeSpring.updateForce sqrtJs cosJs sinJs expJs
        ⟨anchor, some k, some d⟩ p duration).forceAccum ≠ p.forceAccum := by
  have hs : sqrtJs (some (4 * k - d * d)) = none := hsqrt _ hdisc
  have hs2 : ∀ z : JsQ, z = some (4 * k - d * d) → sqrtJs z = none := by
    intro z hz; rw [hz]; exact hs
  have harg : jsSub (jsMul (some 4) (some k)) (jsMul (some d) (some d))
      = some (4 * k - d * d) := by simp [jsSub, jsMul]
  have hcore : (ParticleFakeSpring.updateForce sqrtJs cosJs sinJs expJs
      ⟨anchor, some k, some d⟩ p duration).forceAccum = ⟨none, none, none⟩ := by
    unfold ParticleFakeSpring.updateForce
    rw [harg, hs]
    simp [hmass, jsMul, jsSub, jsEqB, jsDiv, Vec3J.scale, Vec3J.add,
      Vec3J.sub, hcos, ParticleJs.addForce, jsAdd]
  refine ⟨hcore, ?_⟩
  rw [hcore]
  intro hcontra
  have := congrArg Vec3J.x hcontra
  simp [hfx] at this

theorem c9_fakespring_negative_discriminant_corrupts_force_witness :
    let sq : JsQ → JsQ := fun x => x.bind fun v => if v < 0 then none else some v
    let idj : JsQ → JsQ := fun x => x
    let p0 : ParticleJs :=
      { inverseMass := some 1, damping := some 0, position := Vec3J.zero,
        velocity := Vec3J.zero, forceAccum := Vec3J.zero, acceleration := Vec3J.zero }
    (∀ x : ℚ, x < 0 → sq (some x) = none) ∧
    idj none = none ∧
    (4 * 1 - 4 * 4 : ℚ) < 0 ∧
    p0.hasFiniteMass = true ∧
    p0.forceAccum.x = some 0 ∧
    ((ParticleFakeSpring.updateForce sq idj idj idj
        ⟨Vec3J.zero, some 1, some 4⟩ p0 (some 1)).forceAccum = ⟨none, none, none⟩ ∧
      (ParticleFakeSpring.updateForce sq idj idj idj
        ⟨Vec3J.zero, some 1, some 4⟩ p0 (some 1)).forceAccum ≠ p0.forceAccum) := by
  intro sq idj p0
  have hsq : ∀ x : ℚ, x < 0 → sq (some x) = none := by
    intro x hx
    simp only [sq, Option.bind_some]
    simp [hx]
  refine ⟨hsq, rfl, by norm_num, by simp [ParticleJs.hasFiniteMass, jsGeB, p0], rfl,
    c9_fakespring_negative_discriminant_corrupts_force sq idj idj idj hsq rfl
      Vec3J.zero 1 4 (by norm_num) p0
      (by simp [ParticleJs.hasFiniteMass, jsGeB, p0]) 0 rfl (some 1)⟩

theorem countP_eq_sum_getD {α : Type} (p : α → Bool) (d : α) (l : List α) :
    l.countP p = ∑ i ∈ Finset.range l.length,
      (if p (l.getD i d) = true then 1 else 0) := by
  induction l with
  | nil => simp
  | cons a l ih =>
    rw [List.countP_cons, List.length_cons, Finset.sum_range_succ']
    simp only [List.getD_cons_succ, List.getD_cons_zero]
    rw [ih]

theorem countP_pointwise_drop {α : Type} (p q : α → Bool) (d : α)
    (l l2 : List α) (j : ℕ) (hlen : l2.length = l.length) (hj : j < l.length)
    (hsame : ∀ i, i < l.length → i ≠ j → q (l2.getD i d) = p (l.getD i d))
    (hj1 : p (l.getD j d) = true) (hj2 : q (l2.getD j d) = false) :
    l2.countP q + 1 = l.countP p := by
  rw [countP_eq_sum_getD p d l, countP_eq_sum_getD q d l2, hlen]
  have hjmem : j ∈ Finset.range l.length := Finset.mem_range.mpr hj
  rw [← Finset.sum_erase_add _ _ hjmem, ← Finset.sum_erase_add _ _ hjmem]
  have hcongr : ∑ i ∈ (Finset.range l.length).erase j,
      (if q (l2.getD i d) = true then 1 else 0)
      = ∑ i ∈ (Finset.range l.length).erase j,
      (if p (l.getD i d) = true then 1 else 0) := by
    refine Finset.sum_congr rfl ?_
    intro i hi
    obtain ⟨hne, hmem⟩ := Finset.mem_erase.mp hi
    rw [hsame i (Finset.mem_range.mp hmem) hne]
  rw [hcongr, hj1, hj2]
  simp

theorem calcSepVel_eq_of_velocities (ps ps2 : List Particle)
    (c : ParticleContact)
    (h0 : (getP ps2 c.p0).velocity = (getP ps c.p0).velocity)
    (h1 : ∀ j, c.p1 = some j → (getP ps2 j).velocity = (getP ps j).velocity) :
    ParticleContact.calcSepVel ps2 c = ParticleContact.calcSepVel ps c := by
  unfold ParticleContact.calcSepVel
  cases hp : c.p1 with
  | none => simp only [hp, h0]
  | some j => simp only [hp, h0, h1 j hp]

theorem qualB_eq_true_iff (ps : List Particle) (c : ParticleContact) :
    qualB ps c = true ↔
      (ParticleContact.calcSepVel ps c < 0 ∨ 0 < c.penetration) := by
  unfold qualB
  rw [Bool.or_eq_true, decide_eq_true_eq, decide_eq_true_eq]

theorem findWorst_fold_aux (ps : List Particle) (cs : List ParticleContact)
    (n bound : ℕ) (hbn : bound ≤ n) :
    ∀ (l : List ℕ) (acc : Option ℚ × ℕ),
      (∀ i ∈ l, i < bound) →
      ((acc.2 = n ∧ acc.1 = none) ∨
        (acc.2 < bound ∧ qualB ps (cs.getD acc.2 default) = true)) →
      ((l.foldl (findWorstStep ps cs) acc).2 = n ∨
        ((l.foldl (findWorstStep ps cs) acc).2 < bound ∧
          qualB ps (cs.getD (l.foldl (findWorstStep ps cs) acc).2 default) = true)) ∧
      ((l.foldl (findWorstStep ps cs) acc).2 = n →
        acc.2 = n ∧ acc.1 = none ∧
          ∀ i ∈ l, qualB ps (cs.getD i default) = false) := by
  intro l
  induction l with
  | nil =>
    intro acc _ hP
    refine ⟨?_, ?_⟩
    · rcases hP with ⟨h, _⟩ | h
      · exact Or.inl h
      · exact Or.inr h
    · intro h
      rcases hP with ⟨_, h1⟩ | ⟨hlt, _⟩
      · exact ⟨h, h1, by simp⟩
      · exfalso; simp only [List.foldl_nil] at h; omega
  | cons i l ih =>
    intro acc hl hP
    have hib : i < bound := hl i (List.mem_cons_self i l)
    have hl2 : ∀ x ∈ l, x < bound := fun x hx => hl x (List.mem_cons_of_mem i hx)
    simp only [List.foldl_cons]
    by_cases hcond : ltMax (ParticleContact.calcSepVel ps (cs.getD i default)) acc.1
        ∧ (ParticleContact.calcSepVel ps (cs.getD i default) < 0
          ∨ 0 < (cs.getD i default).penetration)
    · have hstep : findWorstStep ps cs acc i
          = (some (ParticleContact.calcSepVel ps (cs.getD i default)), i) := by
        unfold findWorstStep
        exact if_pos hcond
      rw [hstep]
      have hqi : qualB ps (cs.getD i default) = true :=
        (qualB_eq_true_iff ps (cs.getD i default)).mpr hcond.2
      obtain ⟨hPr, hback⟩ :=
        ih (some (ParticleContact.calcSepVel ps (cs.getD i default)), i)
          hl2 (Or.inr ⟨hib, hqi⟩)
      refine ⟨hPr, ?_⟩
      intro hr
      obtain ⟨hacc2, _⟩ := hback hr
      exfalso
      have hin : i < n := lt_of_lt_of_le hib hbn
      simp only at hacc2
      omega
    · have hstep : findWorstStep ps cs acc i = acc := by
        unfold findWorstStep
        exact if_neg hcond
      rw [hstep]
      obtain ⟨hPr, hback⟩ := ih acc hl2 hP
      refine ⟨hPr, ?_⟩
      intro hr
      obtain ⟨hacc2, hacc1, hrest⟩ := hback hr
      have hqf : qualB ps (cs.getD i default) = false := by
        cases hqb : qualB ps (cs.getD i default)
        · rfl
        · exfalso
          apply hcond
          refine ⟨?_, (qualB_eq_true_iff ps (cs.getD i default)).mp hqb⟩
          rw [hacc1]
          rfl
      refine ⟨hacc2, hacc1, ?_⟩
      intro x hx
      rcases List.mem_cons.mp hx with hxi | hxl
      · subst hxi; exact hqf
      · exact hrest x hxl

theorem findWorst_spec (ps : List Particle) (cs : List ParticleContact) (n : ℕ) :
    (findWorst ps cs n = n ∧
      ∀ i, i < min n cs.length → qualB ps (cs.getD i default) = false) ∨
    (findWorst ps cs n < min n cs.length ∧
      qualB ps (cs.getD (findWorst ps cs n) default) = true) := by
  obtain ⟨hP, hback⟩ := findWorst_fold_aux ps cs n (min n cs.length)
    (min_le_left n cs.length) (List.range (min n cs.length)) (none, n)
    (fun i hi => List.mem_range.mp hi) (Or.inl ⟨rfl, rfl⟩)
  unfold findWorst
  rcases hP with h2 | ⟨hlt, hq⟩
  · left
    refine ⟨h2, ?_⟩
    intro i hi
    exact (hback h2).2.2 i (List.mem_range.mpr hi)
  · right
    exact ⟨hlt, hq⟩

theorem coupleOneNet_disjoint (m0 m1 : V3) (r0 : ℕ) (r1 : Option ℕ)
    (c : ParticleContact) (h0 : c.p0 ≠ r0) (h0b : some c.p0 ≠ r1)
    (h1 : ∀ q, c.p1 = some q → q ≠ r0 ∧ some q ≠ r1) :
    coupleOneNet m0 m1 r0 r1 c = 0 := by
  unfold coupleOneNet
  cases hp : c.p1 with
  | none => simp [h0, h0b]
  | some q =>
    obtain ⟨hq0, hq1⟩ := h1 q hp
    simp [h0, h0b, hq0, hq1]

theorem coupleOneNet_self (m0 m1 : V3) (a b : ℕ) (c : ParticleContact)
    (h0 : c.p0 = a) (h1 : c.p1 = some b) (hab : a ≠ b) :
    coupleOneNet m0 m1 a (some b) c
      = -(V3.dot m0 c.contactNormal) + V3.dot m1 c.contactNormal := by
  unfold coupleOneNet
  rw [h1]
  simp only [h0]
  simp [hab, Ne.symm hab]
  try ring

theorem dot_sub_scaleAndAdd (va vb n : V3) (s ima imb : ℚ) :
    V3.dot (V3.sub (V3.scaleAndAdd va (V3.scale n s) ima)
        (V3.scaleAndAdd vb (V3.scale n s) (-imb))) n
      = V3.dot (V3.sub va vb) n + s * (ima + imb) * V3.dot n n := by
  simp only [V3.dot, V3.sub, V3.scaleAndAdd, V3.add, V3.scale]
  ring

theorem resolveVelocity_exists_impulse (ps : List Particle) (c : ParticleContact)
    (duration : ℚ) (b : ℕ)
    (h1 : c.p1 = some b) (hab : c.p0 ≠ b)
    (hima : 0 < (getP ps c.p0).inverseMass)
    (himb : 0 < (getP ps b).inverseMass)
    (hr : 0 ≤ c.restitution)
    (hsep : ¬ 0 < ParticleContact.calcSepVel ps c) :
    ∃ imp : ℚ,
      ParticleContact.resolveVelocity ps c duration
        = setP (setP ps c.p0
            { getP ps c.p0 with velocity := (V3.scaleAndAdd (getP ps c.p0).velocity
                (V3.scale c.contactNormal imp) (getP ps c.p0).inverseMass) }) b
            { getP ps b with velocity := (V3.scaleAndAdd (getP ps b).velocity
                (V3.scale c.contactNormal imp) (-(getP ps b).inverseMass)) } ∧
      0 ≤ ParticleContact.calcSepVel ps c
          + imp * ((getP ps c.p0).inverseMass + (getP ps b).inverseMass) := by
  have htim : ¬((getP ps c.p0).inverseMass +
      (match c.p1 with
        | some j => (getP ps j).inverseMass
        | none => 0) ≤ 0) := by
    rw [h1]
    push_neg
    positivity
  have htimne : (getP ps c.p0).inverseMass + (getP ps b).inverseMass ≠ 0 := by
    positivity
  unfold ParticleContact.resolveVelocity
  rw [if_neg hsep]
  simp only [h1]
  rw [if_neg (by rw [h1] at htim; exact htim)]
  rw [getP_setP_ne ps c.p0 b _ hab]
  refine ⟨((if V3.dot
        (V3.sub (getP ps c.p0).acceleration (getP ps b).acceleration)
        c.contactNormal * duration < 0 then
        (if (-ParticleContact.calcSepVel ps c * c.restitution
            + c.restitution
              * (V3.dot (V3.sub (getP ps c.p0).acceleration (getP ps b).acceleration)
                  c.contactNormal * duration)) < 0 then 0
          else -ParticleContact.calcSepVel ps c * c.restitution
            + c.restitution
              * (V3.dot (V3.sub (getP ps c.p0).acceleration (getP ps b).acceleration)
                  c.contactNormal * duration))
        else -ParticleContact.calcSepVel ps c * c.restitution)
      - ParticleContact.calcSepVel ps c)
      / ((getP ps c.p0).inverseMass + (getP ps b).inverseMass), rfl, ?_⟩
  rw [div_mul_cancel₀ _ htimne]
  have hns : 0 ≤ (if V3.dot
      (V3.sub (getP ps c.p0).acceleration (getP ps b).acceleration)
      c.contactNormal * duration < 0 then
      (if (-ParticleContact.calcSepVel ps c * c.restitution
          + c.restitution
            * (V3.dot (V3.sub (getP ps c.p0).acceleration (getP ps b).acceleration)
                c.contactNormal * duration)) < 0 then 0
        else -ParticleContact.calcSepVel ps c * c.restitution
          + c.restitution
            * (V3.dot (V3.sub (getP ps c.p0).acceleration (getP ps b).acceleration)
                c.contactNormal * duration))
      else -ParticleContact.calcSepVel ps c * c.restitution) := by
    push_neg at hsep
    split_ifs with hacc hclamp
    · exact le_refl 0
    · push_neg at hclamp
      exact hclamp
    · have : 0 ≤ -ParticleContact.calcSepVel ps c := by linarith
      exact mul_nonneg this hr
  linarith

theorem resolveVelocity_spec (ps : List Particle) (c : ParticleContact)
    (duration : ℚ) (b : ℕ)
    (h1 : c.p1 = some b) (hab : c.p0 ≠ b)
    (ha : c.p0 < ps.length) (hb : b < ps.length)
    (hima : 0 < (getP ps c.p0).inverseMass)
    (himb : 0 < (getP ps b).inverseMass)
    (hn : V3.dot c.contactNormal c.contactNormal = 1)
    (hr : 0 ≤ c.restitution) :
    (ParticleContact.resolveVelocity ps c duration).length = ps.length ∧
    (∀ k, k ≠ c.p0 → k ≠ b →
      getP (ParticleContact.resolveVelocity ps c duration) k = getP ps k) ∧
    (∀ k, (getP (ParticleContact.resolveVelocity ps c duration) k).inverseMass
        = (getP ps k).inverseMass ∧
      (getP (ParticleContact.resolveVelocity ps c duration) k).position
        = (getP ps k).position ∧
      (getP (ParticleContact.resolveVelocity ps c duration) k).acceleration
        = (getP ps k).acceleration) ∧
    0 ≤ ParticleContact.calcSepVel (ParticleContact.resolveVelocity ps c duration) c := by
  by_cases hsep : 0 < ParticleContact.calcSepVel ps c
  · have hres : ParticleContact.resolveVelocity ps c duration = ps := by
      unfold ParticleContact.resolveVelocity
      rw [if_pos hsep]
    rw [hres]
    exact ⟨rfl, fun k _ _ => rfl, fun k => ⟨rfl, rfl, rfl⟩, le_of_lt hsep⟩
  · obtain ⟨imp, hres, himpsep⟩ :=
      resolveVelocity_exists_impulse ps c duration b h1 hab hima himb hr hsep
    rw [hres]
    have hlen1 : (setP ps c.p0
        { getP ps c.p0 with velocity := (V3.scaleAndAdd (getP ps c.p0).velocity
            (V3.scale c.contactNormal imp) (getP ps c.p0).inverseMass) }).length
        = ps.length := by simp [setP]
    refine ⟨by simp [setP], ?_, ?_, ?_⟩
    · intro k hk0 hkb
      rw [getP_setP_ne _ b k _ (fun h => hkb h.symm),
        getP_setP_ne _ c.p0 k _ (fun h => hk0 h.symm)]
    · intro k
      by_cases hk0 : k = c.p0
      · subst hk0
        rw [getP_setP_ne _ b c.p0 _ (fun h => hab h.symm),
          getP_setP_self _ _ _ ha]
        exact ⟨rfl, rfl, rfl⟩
      · by_cases hkb : k = b
        · subst hkb
          rw [getP_setP_self _ _ _ (by rw [hlen1]; exact hb)]
          exact ⟨rfl, rfl, rfl⟩
        · rw [getP_setP_ne _ b k _ (fun h => hkb h.symm),
            getP_setP_ne _ c.p0 k _ (fun h => hk0 h.symm)]
          exact ⟨rfl, rfl, rfl⟩
    · unfold ParticleContact.calcSepVel
      simp only [h1]
      rw [getP_setP_self _ _ _ (by rw [hlen1]; exact hb)]
      rw [getP_setP_ne _ b c.p0 _ (fun h => hab h.symm)]
      rw [getP_setP_self _ _ _ ha]
      rw [dot_sub_scaleAndAdd]
      rw [hn]
      calc (0:ℚ) ≤ ParticleContact.calcSepVel ps c
          + imp * ((getP ps c.p0).inverseMass + (getP ps b).inverseMass) := himpsep
        _ = V3.dot (V3.sub (getP ps c.p0).velocity (getP ps b).velocity) c.contactNormal
          + imp * ((getP ps c.p0).inverseMass + (getP ps b).inverseMass) * 1 := by
            unfold ParticleContact.calcSepVel
            simp only [h1]
            ring

theorem resolveInterpenetration_spec (ps : List Particle) (c : ParticleContact)
    (duration : ℚ) (b : ℕ)
    (h1 : c.p1 = some b) (hab : c.p0 ≠ b)
    (ha : c.p0 < ps.length) (hb : b < ps.length)
    (hima : 0 < (getP ps c.p0).inverseMass)
    (himb : 0 < (getP ps b).inverseMass)
    (hn : V3.dot c.contactNormal c.contactNormal = 1)
    (hpen : 0 < c.penetration) :
    ∃ m0 m1 : V3, ∃ ps2 : List Particle,
      ParticleContact.resolveInterpenetration ps c duration
        = .ok (ps2, { c with movement0 := some m0, movement1 := some m1 }) ∧
      ps2.length = ps.length ∧
      (∀ k, (getP ps2 k).velocity = (getP ps k).velocity ∧
        (getP ps2 k).inverseMass = (getP ps k).inverseMass ∧
        (getP ps2 k).acceleration = (getP ps k).acceleration) ∧
      (∀ k, k ≠ c.p0 → k ≠ b → getP ps2 k = getP ps k) ∧
      c.penetration - V3.dot m0 c.contactNormal + V3.dot m1 c.contactNormal = 0 := by
  have htimpos : 0 < (getP ps c.p0).inverseMass + (getP ps b).inverseMass := by
    positivity
  have htimne : (getP ps c.p0).inverseMass + (getP ps b).inverseMass ≠ 0 :=
    ne_of_gt htimpos
  refine ⟨V3.scale (V3.scale c.contactNormal
      (c.penetration / ((getP ps c.p0).inverseMass + (getP ps b).inverseMass)))
      (getP ps c.p0).inverseMass,
    V3.scale (V3.scale c.contactNormal
      (c.penetration / ((getP ps c.p0).inverseMass + (getP ps b).inverseMass)))
      (-(getP ps b).inverseMass),
    setP (setP ps c.p0
      { getP ps c.p0 with position := (V3.add (getP ps c.p0).position
          (V3.scale (V3.scale c.contactNormal
            (c.penetration / ((getP ps c.p0).inverseMass + (getP ps b).inverseMass)))
            (getP ps c.p0).inverseMass)) }) b
      { getP ps b with position := (V3.add (getP ps b).position
          (V3.scale (V3.scale c.contactNormal
            (c.penetration / ((getP ps c.p0).inverseMass + (getP ps b).inverseMass)))
            (-(getP ps b).inverseMass))) },
    ?_, ?_, ?_, ?_, ?_⟩
  · unfold ParticleContact.resolveInterpenetration
    rw [if_neg (by push_neg; exact hpen)]
    simp only [h1]
    rw [if_neg (by push_neg; exact htimpos)]
    rw [getP_setP_ne ps c.p0 b _ hab]
  · simp [setP]
  · intro k
    by_cases hk0 : k = c.p0
    · subst hk0
      rw [getP_setP_ne _ b c.p0 _ (fun h => hab h.symm),
        getP_setP_self _ _ _ ha]
      exact ⟨rfl, rfl, rfl⟩
    · by_cases hkb : k = b
      · rw [hkb]
        rw [getP_setP_self _ _ _ (by simp [setP]; exact hb)]
        exact ⟨rfl, rfl, rfl⟩
      · rw [getP_setP_ne _ b k _ (fun h => hkb h.symm),
          getP_setP_ne _ c.p0 k _ (fun h => hk0 h.symm)]
        exact ⟨rfl, rfl, rfl⟩
  · intro k hk0 hkb
    rw [getP_setP_ne _ b k _ (fun h => hkb h.symm),
      getP_setP_ne _ c.p0 k _ (fun h => hk0 h.symm)]
  · rw [V3.dot_scale_left, V3.dot_scale_left, V3.dot_scale_left, V3.dot_scale_left, hn]
    field_simp
    ring

theorem getC_set_self (cs : List ParticleContact) (j : ℕ) (c : ParticleContact)
    (h : j < cs.length) : (cs.set j c).getD j default = c := by
  simp [List.getD, List.getElem?_set_self, h]

theorem getC_set_ne (cs : List ParticleContact) (j k : ℕ) (c : ParticleContact)
    (h : j ≠ k) : (cs.set j c).getD k default = cs.getD k default := by
  simp [List.getD, List.getElem?_set_ne, h]

theorem qualB_eq_false_iff (ps : List Particle) (c : ParticleContact) :
    qualB ps c = false ↔
      ¬(ParticleContact.calcSepVel ps c < 0 ∨ 0 < c.penetration) := by
  rw [← qualB_eq_true_iff]
  cases qualB ps c <;> simp

theorem refs_pair (c : ParticleContact) (b : ℕ) (h : c.p1 = some b) :
    c.refs = [c.p0, b] := by
  unfold ParticleContact.refs
  rw [h]

theorem calcSepVel_congr (ps : List Particle) (c c2 : ParticleContact)
    (h0 : c2.p0 = c.p0) (h1 : c2.p1 = c.p1) (hn : c2.contactNormal = c.contactNormal) :
    ParticleContact.calcSepVel ps c2 = ParticleContact.calcSepVel ps c := by
  unfold ParticleContact.calcSepVel
  rw [h0, h1, hn]

theorem mem_pair_iff (x a b : ℕ) : x ∈ ([a, b] : List ℕ) ↔ x = a ∨ x = b := by
  simp

theorem iterBody_spec (duration : ℚ) (ps : List Particle)
    (cs : List ParticleContact)
    (hinv : BatchInv ps cs) (hdisj : DisjointContacts cs)
    (hjne : findWorst ps cs cs.length ≠ cs.length) :
    ∃ ps2 cs3,
      ParticleContactResolver.iterBody cs.length duration (ps, cs)
        = .ok (some (ps2, cs3)) ∧
      cs3.length = cs.length ∧ ps2.length = ps.length ∧
      BatchInv ps2 cs3 ∧ DisjointContacts cs3 ∧
      badCount ps2 cs3 + 1 = badCount ps cs := by
  rcases findWorst_spec ps cs cs.length with ⟨heq, _⟩ | ⟨hjlt, hjq⟩
  · exact absurd heq hjne
  rw [min_self] at hjlt
  set j := findWorst ps cs cs.length with hjdef
  set c := cs.getD j default with hcdef
  obtain ⟨b, hb1, hab⟩ := hinv.twoSlots j hjlt
  rw [← hcdef] at hb1 hab
  have hrefs : c.refs = [c.p0, b] := refs_pair c b hb1
  have hp0mem : c.p0 ∈ c.refs := by rw [hrefs]; simp
  have hbmem : b ∈ c.refs := by rw [hrefs]; simp
  have ha : c.p0 < ps.length := hinv.bounded j hjlt c.p0 (by rw [← hcdef]; exact hp0mem)
  have hbb : b < ps.length := hinv.bounded j hjlt b (by rw [← hcdef]; exact hbmem)
  have hima : 0 < (getP ps c.p0).inverseMass :=
    hinv.finiteMasses j hjlt c.p0 (by rw [← hcdef]; exact hp0mem)
  have himb : 0 < (getP ps b).inverseMass :=
    hinv.finiteMasses j hjlt b (by rw [← hcdef]; exact hbmem)
  have hn : V3.dot c.contactNormal c.contactNormal = 1 := by
    have := hinv.unitNormal j hjlt
    rw [← hcdef] at this
    exact this
  have hr : 0 ≤ c.restitution := by
    have := hinv.restitutionNonneg j hjlt
    rw [← hcdef] at this
    exact this
  have hpen : 0 < c.penetration := by
    rcases (qualB_eq_true_iff _ _).mp hjq with hsep | hp
    · have := hinv.closingPenetrates j hjlt
      rw [← hcdef] at this
      exact this hsep
    · exact hp
  obtain ⟨hAlen, hAuntouched, hAfields, hAsep⟩ :=
    resolveVelocity_spec ps c duration b hb1 hab ha hbb hima himb hn hr
  set ps1 := ParticleContact.resolveVelocity ps c duration with hps1def
  have ha1 : c.p0 < ps1.length := by rw [hAlen]; exact ha
  have hb1l : b < ps1.length := by rw [hAlen]; exact hbb
  have hima1 : 0 < (getP ps1 c.p0).inverseMass := by
    rw [(hAfields c.p0).1]; exact hima
  have himb1 : 0 < (getP ps1 b).inverseMass := by
    rw [(hAfields b).1]; exact himb
  obtain ⟨m0, m1, ps2, hres, hBlen, hBvel, hBuntouched, hdot⟩ :=
    resolveInterpenetration_spec ps1 c duration b hb1 hab ha1 hb1l hima1 himb1 hn hpen
  set c1 : ParticleContact := { c with movement0 := some m0, movement1 := some m1 }
    with hc1def
  have hc1len : (cs.set j c1).length = cs.length := by simp
  obtain ⟨cs3, hc3eq, hc3len0, hc3ptw⟩ :=
    coupleAll_some_ok m0 m1 c.p0 (some b) cs.length (cs.set j c1) (le_of_eq hc1len.symm)
  have hlen3 : cs3.length = cs.length := by rw [hc3len0, hc1len]
  have hps2len : ps2.length = ps.length := by rw [hBlen, hAlen]
  -- the executable step
  have hiter : ParticleContactResolver.iterBody cs.length duration (ps, cs)
      = .ok (some (ps2, cs3)) := by
    unfold ParticleContactResolver.iterBody
    dsimp only
    rw [← hjdef, if_neg hjne]
    unfold ParticleContact.resolve
    rw [← hcdef, ← hps1def, hres]
    simp only [bind, Except.bind, pure, Except.pure]
    rw [hb1, hc3eq]
  -- pointwise description of the coupled batch
  have hother : ∀ i, i < cs.length → i ≠ j →
      cs3.getD i default = cs.getD i default := by
    intro i hi hij
    have hx := hc3ptw i
    rw [if_pos hi] at hx
    rw [getC_set_ne cs j i c1 (fun h => hij h.symm)] at hx
    have hnet : coupleOneNet m0 m1 c.p0 (some b) (cs.getD i default) = 0 := by
      obtain ⟨q, hq1, hqne⟩ := hinv.twoSlots i hi
      have hrefsi : (cs.getD i default).refs = [(cs.getD i default).p0, q] :=
        refs_pair _ q hq1
      have hdis := hdisj i j hi hjlt hij
      have hne0 : (cs.getD i default).p0 ≠ c.p0 ∧ (cs.getD i default).p0 ≠ b := by
        have hmem : (cs.getD i default).p0 ∈ (cs.getD i default).refs := by
          rw [hrefsi]; simp
        have := hdis _ hmem
        rw [← hcdef, hrefs, mem_pair_iff] at this
        push_neg at this
        exact this
      have hneq : q ≠ c.p0 ∧ q ≠ b := by
        have hmem : q ∈ (cs.getD i default).refs := by rw [hrefsi]; simp
        have := hdis _ hmem
        rw [← hcdef, hrefs, mem_pair_iff] at this
        push_neg at this
        exact this
      refine coupleOneNet_disjoint m0 m1 c.p0 (some b) _ hne0.1 ?_ ?_
      · intro hcontra
        exact hne0.2 (Option.some.inj hcontra)
      · intro q2 hq2
        rw [hq1] at hq2
        cases hq2
        constructor
        · exact hneq.1
        · intro hcontra
          exact hneq.2 (Option.some.inj hcontra)
    rw [hnet, add_zero] at hx
    rw [hx]
  have hjth : cs3.getD j default
      = { c1 with penetration := (c1.penetration + coupleOneNet m0 m1 c.p0 (some b) c1) } := by
    have hx := hc3ptw j
    rw [if_pos hjlt] at hx
    rw [getC_set_self cs j c1 hjlt] at hx
    exact hx
  have hjpen : (cs3.getD j default).penetration = 0 := by
    rw [hjth]
    have hnet : coupleOneNet m0 m1 c.p0 (some b) c1
        = -(V3.dot m0 c1.contactNormal) + V3.dot m1 c1.contactNormal :=
      coupleOneNet_self m0 m1 c.p0 b c1 rfl (by rw [hc1def]; exact hb1) hab
    rw [hnet]
    have hcn : c1.contactNormal = c.contactNormal := rfl
    rw [hcn]
    show c.penetration + (-(V3.dot m0 c.contactNormal) + V3.dot m1 c.contactNormal) = 0
    linarith
  have hjslots : (cs3.getD j default).p0 = c.p0 ∧ (cs3.getD j default).p1 = some b
      ∧ (cs3.getD j default).contactNormal = c.contactNormal
      ∧ (cs3.getD j default).restitution = c.restitution := by
    rw [hjth]
    exact ⟨rfl, by rw [hc1def]; exact hb1, rfl, rfl⟩
  have hrefs3 : (cs3.getD j default).refs = [c.p0, b] := by
    rw [refs_pair _ b hjslots.2.1, hjslots.1]
  -- particle-level preservation
  have huntouchedAll : ∀ k, k ≠ c.p0 → k ≠ b → getP ps2 k = getP ps k := by
    intro k h1 h2
    rw [hBuntouched k h1 h2, hAuntouched k h1 h2]
  have hmassAll : ∀ k, (getP ps2 k).inverseMass = (getP ps k).inverseMass := by
    intro k
    rw [(hBvel k).2.1, (hAfields k).1]
  have hsep_other : ∀ i, i < cs.length → i ≠ j →
      ParticleContact.calcSepVel ps2 (cs.getD i default)
        = ParticleContact.calcSepVel ps (cs.getD i default) := by
    intro i hi hij
    obtain ⟨q, hq1, hqne⟩ := hinv.twoSlots i hi
    have hrefsi : (cs.getD i default).refs = [(cs.getD i default).p0, q] :=
      refs_pair _ q hq1
    have hdis := hdisj i j hi hjlt hij
    have hmem0 : (cs.getD i default).p0 ∈ (cs.getD i default).refs := by
      rw [hrefsi]; simp
    have hmemq : q ∈ (cs.getD i default).refs := by rw [hrefsi]; simp
    have hne0 := hdis _ hmem0
    have hneq := hdis _ hmemq
    rw [← hcdef, hrefs, mem_pair_iff] at hne0 hneq
    push_neg at hne0 hneq
    refine calcSepVel_eq_of_velocities ps ps2 _ ?_ ?_
    · rw [huntouchedAll _ hne0.1 hne0.2]
    · intro q2 hq2
      rw [hq1] at hq2
      cases hq2
      rw [huntouchedAll _ hneq.1 hneq.2]
  have hsep_j : 0 ≤ ParticleContact.calcSepVel ps2 c := by
    have hstep : ParticleContact.calcSepVel ps2 c = ParticleContact.calcSepVel ps1 c := by
      refine calcSepVel_eq_of_velocities ps1 ps2 c ?_ ?_
      · exact (hBvel c.p0).1
      · intro q2 _
        exact (hBvel q2).1
    rw [hstep]
    exact hAsep
  have hsep_j3 : 0 ≤ ParticleContact.calcSepVel ps2 (cs3.getD j default) := by
    have : ParticleContact.calcSepVel ps2 (cs3.getD j default)
        = ParticleContact.calcSepVel ps2 c := by
      refine calcSepVel_congr ps2 c _ hjslots.1 ?_ hjslots.2.2.1
      rw [hjslots.2.1, hb1]
    rw [this]
    exact hsep_j
  refine ⟨ps2, cs3, hiter, hlen3, hps2len, ?_, ?_, ?_⟩
  · -- BatchInv ps2 cs3
    constructor
    · intro i hi
      rw [hlen3] at hi
      by_cases hij : i = j
      · subst hij
        exact ⟨b, hjslots.2.1, by rw [hjslots.1]; exact hab⟩
      · rw [hother i hi hij]
        exact hinv.twoSlots i hi
    · intro i hi x hx
      rw [hlen3] at hi
      rw [hps2len]
      by_cases hij : i = j
      · subst hij
        rw [hrefs3, mem_pair_iff] at hx
        rcases hx with h | h
        · rw [h]; exact ha
        · rw [h]; exact hbb
      · rw [hother i hi hij] at hx
        exact hinv.bounded i hi x hx
    · intro i hi x hx
      rw [hlen3] at hi
      rw [hmassAll x]
      by_cases hij : i = j
      · subst hij
        rw [hrefs3, mem_pair_iff] at hx
        rcases hx with h | h
        · rw [h]; exact hima
        · rw [h]; exact himb
      · rw [hother i hi hij] at hx
        exact hinv.finiteMasses i hi x hx
    · intro i hi
      rw [hlen3] at hi
      by_cases hij : i = j
      · subst hij
        rw [hjslots.2.2.1]
        exact hn
      · rw [hother i hi hij]
        exact hinv.unitNormal i hi
    · intro i hi
      rw [hlen3] at hi
      by_cases hij : i = j
      · subst hij
        rw [hjslots.2.2.2]
        exact hr
      · rw [hother i hi hij]
        exact hinv.restitutionNonneg i hi
    · intro i hi hclosing
      rw [hlen3] at hi
      by_cases hij : i = j
      · subst hij
        exfalso
        rw [lt_iff_not_le] at hclosing
        exact hclosing hsep_j3
      · rw [hother i hi hij] at hclosing ⊢
        rw [hsep_other i hi hij] at hclosing
        exact hinv.closingPenetrates i hi hclosing
  · -- DisjointContacts cs3
    intro i k hi hk hik x hx
    rw [hlen3] at hi hk
    have hrefs_eq : ∀ i2, i2 < cs.length →
        (cs3.getD i2 default).refs = (cs.getD i2 default).refs := by
      intro i2 hi2
      by_cases hij2 : i2 = j
      · subst hij2
        rw [hrefs3, ← hcdef, ← hrefs]
      · rw [hother i2 hi2 hij2]
    rw [hrefs_eq i hi] at hx
    rw [hrefs_eq k hk]
    exact hdisj i k hi hk hik x hx
  · -- badCount decreases by exactly one
    refine countP_pointwise_drop (qualB ps) (qualB ps2) default cs cs3 j
      (by rw [hlen3]) hjlt ?_ ?_ ?_
    · intro i hi hij
      rw [hother i hi hij]
      unfold qualB
      rw [hsep_other i hi hij]
    · exact hjq
    · rw [qualB_eq_false_iff]
      push_neg
      constructor
      · exact hsep_j3
      · exact le_of_eq hjpen

theorem getD_mem_of_lt {α : Type} [Inhabited α] (l : List α) (i : ℕ)
    (h : i < l.length) : l.getD i default ∈ l := by
  rw [List.getD_eq_getElem?_getD, List.getElem?_eq_getElem h, Option.getD_some]
  exact List.getElem_mem h

theorem goResolve_spec (duration : ℚ) (N : ℕ) :
    ∀ (fuel t : ℕ) (ps : List Particle) (cs : List ParticleContact),
      t + fuel = N → cs.length = N →
      BatchInv ps cs → DisjointContacts cs →
      badCount ps cs ≤ fuel →
      ∃ used ps2 cs2,
        ParticleContactResolver.goResolve (some (N : ℚ)) N duration fuel
            (t : ℚ) (ps, cs)
          = .ok (used, ps2, cs2) ∧
        cs2.length = N ∧
        ∀ i, i < N → qualB ps2 (cs2.getD i default) = false := by
  intro fuel
  induction fuel with
  | zero =>
    intro t ps cs ht hlen hinv hdisj hbad
    refine ⟨(t : ℚ), ps, cs, rfl, hlen, ?_⟩
    intro i hi
    have hi2 : i < cs.length := by rw [hlen]; exact hi
    have hzero : badCount ps cs = 0 := Nat.le_zero.mp hbad
    have hall := List.countP_eq_zero.mp hzero (cs.getD i default)
      (getD_mem_of_lt cs i hi2)
    cases hq : qualB ps (cs.getD i default)
    · rfl
    · exact absurd hq hall
  | succ fuel ih =>
    intro t ps cs ht hlen hinv hdisj hbad
    have htN : t < N := by omega
    have hguard : ParticleContactResolver.jsLt (t : ℚ) (some (N : ℚ)) = true := by
      unfold ParticleContactResolver.jsLt
      rw [decide_eq_true_eq]
      exact_mod_cast htN
    by_cases hj : findWorst ps cs cs.length = cs.length
    · have hbody : ParticleContactResolver.iterBody N duration (ps, cs)
          = .ok none := by
        unfold ParticleContactResolver.iterBody
        dsimp only
        rw [← hlen, if_pos hj]
        rfl
      have hpost : ∀ i, i < N → qualB ps (cs.getD i default) = false := by
        rcases findWorst_spec ps cs cs.length with ⟨_, hnone⟩ | ⟨hlt, _⟩
        · intro i hi
          exact hnone i (by rw [min_self, hlen]; exact hi)
        · exact absurd (by omega : findWorst ps cs cs.length ≠ cs.length) (by
            rw [min_self] at hlt
            intro hcontra
            exact hcontra hj)
      refine ⟨(t : ℚ), ps, cs, ?_, hlen, hpost⟩
      unfold ParticleContactResolver.goResolve
      rw [if_pos hguard, hbody]
      rfl
    · have hiterspec := iterBody_spec duration ps cs hinv hdisj hj
      obtain ⟨ps2, cs3, hbody, hlen3, hps2len, hinv3, hdisj3, hdrop⟩ := hiterspec
      have hbodyN : ParticleContactResolver.iterBody N duration (ps, cs)
          = .ok (some (ps2, cs3)) := by
        rw [← hlen]
        exact hbody
      have hbad3 : badCount ps2 cs3 ≤ fuel := by omega
      have ht3 : (t + 1) + fuel = N := by omega
      have hlen3N : cs3.length = N := by rw [hlen3, hlen]
      obtain ⟨used, ps4, cs4, hrec, hlen4, hpost⟩ :=
        ih (t + 1) ps2 cs3 ht3 hlen3N hinv3 hdisj3 hbad3
      refine ⟨used, ps4, cs4, ?_, hlen4, hpost⟩
      unfold ParticleContactResolver.goResolve
      rw [if_pos hguard, hbodyN]
      show ParticleContactResolver.goResolve (some (N : ℚ)) N duration fuel
          ((t : ℚ) + 1) (ps2, cs3) = .ok (used, ps4, cs4)
      have hcast : ((t : ℚ) + 1) = ((t + 1 : ℕ) : ℚ) := by push_cast; ring
      rw [hcast]
      exact hrec

/-- C2 (counterexample): a batch of one contact between two finite-mass
particles (masses 1), closing at speed 1, with penetration `0` and the
resolver's iterations bound equal to the batch size `1`.  The contact
qualifies for resolution (separating velocity `-1 < 0`), but since its
penetration is not positive, `resolveInterpenetration` returns without
writing the `particleMovement` slots, and the coupling loop then reads the
absent `particleMovement[0]` of the resolved contact — the call throws
instead of terminating with the claimed final state. -/
theorem c2_counterexample_closing_contact_without_penetration :
    ParticleContactResolver.resolveContacts ⟨some 1, none⟩
        [{ p0 := 0, p1 := some 1, restitution := 0, contactNormal := ⟨1, 0, 0⟩,
           penetration := 0, movement0 := none, movement1 := none }] 1 1
        [{ inverseMass := 1, damping := 0, position := V3.zero,
           velocity := ⟨-1, 0, 0⟩, forceAccum := V3.zero, acceleration := V3.zero },
         { inverseMass := 1, damping := 0, position := V3.zero,
           velocity := V3.zero, forceAccum := V3.zero, acceleration := V3.zero }]
      = .error () := by
  norm_num [ParticleContactResolver.resolveContacts,
    ParticleContactResolver.goResolve, ParticleContactResolver.iterBody,
    ParticleContactResolver.jsLt, findWorst, findWorstStep,
    ParticleContact.resolve, ParticleContact.resolveVelocity,
    ParticleContact.resolveInterpenetration, ParticleContact.calcSepVel,
    coupleAll, coupleOne, jsDotM, getP, setP, V3.dot, V3.sub, V3.add,
    V3.scale, V3.scaleAndAdd, V3.zero, Bind.bind, Except.bind, Pure.pure,
    Except.pure, List.range_succ, List.getD, List.set, ltMax, Nat.ceil_one,
    List.getElem?_cons_zero, List.getElem?_cons_succ, Option.getD_some,
    Option.getD_none]

/-- C2 (amended): for a batch of pairwise-disjoint contacts, each with both
slots present, distinct, in range and of finite mass, unit normals and
non-negative restitution (the data-model invariants), and — the amendment
forced by the counterexample — in which every contact that is still closing
also has positive penetration, `resolveContacts` with the iterations field
set to the batch size terminates without error, and afterwards no contact
has separating velocity below zero and every contact has penetration at
most `0`. -/
theorem c2_amended_disjoint_batch_converges (ps : List Particle)
    (cs : List ParticleContact) (duration : ℚ) (u0 : Option ℚ)
    (hinv : BatchInv ps cs) (hdisj : DisjointContacts cs) :
    ∃ used ps2 cs2,
      ParticleContactResolver.resolveContacts ⟨some (cs.length : ℚ), u0⟩ cs
          cs.length duration ps
        = .ok (⟨some (cs.length : ℚ), some used⟩, ps2, cs2) ∧
      cs2.length = cs.length ∧
      ∀ i, i < cs.length →
        ¬ ParticleContact.calcSepVel ps2 (cs2.getD i default) < 0 ∧
        (cs2.getD i default).penetration ≤ 0 := by
  obtain ⟨used, ps2, cs2, hrun, hlen2, hpost⟩ :=
    goResolve_spec duration cs.length cs.length 0 ps cs (by omega) rfl hinv hdisj
      (List.countP_le_length (qualB ps))
  rw [Nat.cast_zero] at hrun
  refine ⟨used, ps2, cs2, ?_, hlen2, ?_⟩
  · unfold ParticleContactResolver.resolveContacts
    dsimp only
    rw [Nat.ceil_natCast, hrun]
    rfl
  · intro i hi
    have hq := hpost i hi
    rw [qualB_eq_false_iff] at hq
    push_neg at hq
    exact ⟨not_lt.mpr hq.1, hq.2⟩

theorem c2_amended_disjoint_batch_converges_witness :
    let pA : Particle :=
      { inverseMass := 1, damping := 0, position := V3.zero,
        velocity := ⟨-1, 0, 0⟩, forceAccum := V3.zero, acceleration := V3.zero }
    let pB : Particle :=
      { inverseMass := 1, damping := 0, position := V3.zero,
        velocity := V3.zero, forceAccum := V3.zero, acceleration := V3.zero }
    let c0 : ParticleContact :=
      { p0 := 0, p1 := some 1, restitution := 0, contactNormal := ⟨1, 0, 0⟩,
        penetration := 1/10, movement0 := none, movement1 := none }
    BatchInv [pA, pB] [c0] ∧ DisjointContacts [c0] ∧
    ∃ used ps2 cs2,
      ParticleContactResolver.resolveContacts
          ⟨some (([c0] : List ParticleContact).length : ℚ), none⟩ [c0]
          ([c0] : List ParticleContact).length 1 [pA, pB]
        = .ok (⟨some (([c0] : List ParticleContact).length : ℚ), some used⟩, ps2, cs2) ∧
      cs2.length = ([c0] : List ParticleContact).length ∧
      ∀ i, i < ([c0] : List ParticleContact).length →
        ¬ ParticleContact.calcSepVel ps2 (cs2.getD i default) < 0 ∧
        (cs2.getD i default).penetration ≤ 0 := by
  intro pA pB c0
  have hone : ∀ i : ℕ, i < ([c0] : List ParticleContact).length → i = 0 := by
    intro i hi
    simp only [List.length_singleton] at hi
    omega
  have hinv : BatchInv [pA, pB] [c0] := by
    constructor
    · intro i hi
      rw [hone i hi]
      exact ⟨1, rfl, by norm_num⟩
    · intro i hi x hx
      rw [hone i hi] at hx
      simp only [List.getD_cons_zero] at hx
      rw [refs_pair c0 1 rfl] at hx
      rcases (mem_pair_iff x _ _).mp hx with h | h <;> (rw [h]; norm_num)
    · intro i hi x hx
      rw [hone i hi] at hx
      simp only [List.getD_cons_zero] at hx
      rw [refs_pair c0 1 rfl] at hx
      rcases (mem_pair_iff x _ _).mp hx with h | h <;>
        (rw [h]; norm_num [getP, pA, pB, List.getD])
    · intro i hi
      rw [hone i hi]
      norm_num [V3.dot, c0]
    · intro i hi
      rw [hone i hi]
      norm_num [c0]
    · intro i hi _
      rw [hone i hi]
      norm_num [c0]
  have hdisj : DisjointContacts [c0] := by
    intro i k hi hk hik x _
    rw [hone i hi, hone k hk] at hik
    exact absurd rfl hik
  exact ⟨hinv, hdisj,
    c2_amended_disjoint_batch_converges [pA, pB] [c0] 1 none hinv hdisj⟩
